import Mathlib

/-!
Verification of the instance-orchestration and persona-scheduling engine.

This file gives a shallow embedding, in Lean, of the core services of the
repository (worktree manager, claude manager, instance manager, persona
environment, persona scheduler) and proves properties about them.

Modelling conventions:
* JavaScript `Map` objects keyed by strings/ids become association lists in
  insertion order; `Map.set` is `setByKey` (replace in place, else append),
  which matches JS `Map` semantics including its preserved insertion order.
* External effects (`execAsync` git commands, the agent `query` call) are
  driven by a script `Ext : List (Except String String)`: each external call
  consumes one entry; `.ok r` means the call succeeds with payload `r`,
  `.error e` means it fails with message `e`.  An exhausted script defaults
  to success, so `[]` is the all-success world.
* `Date.now()` becomes a strictly increasing counter `clock` (one tick per
  call), `fs` best-effort operations (`mkdir`, forced `rm`) are modelled as
  always succeeding, and wall-clock timestamp fields (`createdAt`,
  `assignedAt`, `completedAt`, `startedAt`, `lastActivity`) are dropped:
  no property below depends on them.
* The single-threaded cooperative semantics of the source is modelled by
  making each exposed operation one atomic transition; `EventEmitter`
  emissions that matter to a property are returned as explicit event lists
  and processed by the listening component after the emitting operation,
  which is observationally equivalent here because no handler touches state
  read later by its emitter.
-/

namespace CodingTeam

/-- Outcome script for external calls (git commands and agent queries). -/
abbrev Ext := List (Except String String)

/-- Consume one external outcome; an exhausted script defaults to success. -/
def takeExt : Ext → Except String String × Ext
  | [] => (.ok "", [])
  | e :: rest => (e, rest)

/-- JS `Map.set` on an association list: replace the entry with the same key
in place, otherwise append. -/
def setByKey {α κ : Type} [BEq κ] (key : α → κ) (l : List α) (a : α) : List α :=
  if l.any (fun x => key x == key a) then
    l.map (fun x => if key x == key a then a else x)
  else l ++ [a]

/-! ## Data model -/

/-- `ScheduledTask.priority` values. -/
inductive Priority where
  | high | medium | low
deriving DecidableEq

/-- `priorityOrder` from `PersonaScheduler.scheduleNextTasks`. -/
def priorityOrder : Priority → Nat
  | .high => 0
  | .medium => 1
  | .low => 2

/-- `ScheduledTask.status` values. -/
inductive TaskStatus where
  | pending | assigned | running | completed | failed
deriving DecidableEq

/-- Status text as it appears in error messages (template interpolation). -/
def taskStatusText : TaskStatus → String
  | .pending => "pending"
  | .assigned => "assigned"
  | .running => "running"
  | .completed => "completed"
  | .failed => "failed"

/-- `PersonaState.status` values. -/
inductive PersonaStatus where
  | idle | active | busy | error | suspended
deriving DecidableEq

/-- `ClaudeInstance.status` values. -/
inductive CStatus where
  | ready | busy | error | stopped
deriving DecidableEq

/-- Status text for `ClaudeManager.sendMessage`'s not-ready error message. -/
def cStatusText : CStatus → String
  | .ready => "ready"
  | .busy => "busy"
  | .error => "error"
  | .stopped => "stopped"

/-- `PersonaCapability` from `src/types/persona.ts`. -/
structure PersonaCapability where
  name : String
  enabled : Bool
deriving DecidableEq

/-- `PersonaConstraints` (the fields `buildSystemPrompt` reads). -/
structure PersonaConstraints where
  allowedBranches : Option (List String)
  restrictedPaths : Option (List String)
deriving DecidableEq

/-- `PersonaDefinition` from `src/types/persona.ts`.  The `guidelines` field
models the content that `PersonaStore.loadPersonaGuidelines` would read from
`guidelinesPath` (`none` when there is no guidelines file). -/
structure PersonaDefinition where
  id : String
  name : String
  type : String
  systemPrompt : String
  capabilities : List PersonaCapability
  constraints : Option PersonaConstraints
  singleton : Bool
  guidelines : Option String
deriving DecidableEq

/-- `PersonaStatistics` (timestamps dropped). -/
structure PersonaStatistics where
  tasksCompleted : Nat
  tasksFailed : Nat
  totalActiveTime : Nat
  lastError : Option String
deriving DecidableEq

/-- `PersonaMemory`. -/
structure PersonaMemory where
  shortTerm : List (String × String)
  workingMemory : List (String × String)
  persistentFacts : List String
deriving DecidableEq

/-- `PersonaState` from `src/types/persona.ts` (timestamps dropped). -/
structure PersonaState where
  personaId : String
  instanceId : String
  status : PersonaStatus
  currentTask : Option String
  memory : PersonaMemory
  statistics : PersonaStatistics
deriving DecidableEq

/-- `InstanceConfig` from the instance manager. -/
structure InstanceConfig where
  name : String
  type : String
  branch : Option String
  systemPrompt : Option String
deriving DecidableEq

/-- `ClaudeInstance` from the claude manager (abort controller handle and
timestamps dropped; cancellation is out of scope of the claims). -/
structure ClaudeInstance where
  id : String
  name : String
  status : CStatus
  workingDirectory : String
deriving DecidableEq

/-- `ManagedInstance`: the spread `{ ...claudeInstance, config, worktreePath,
startedAt, restartCount }`, so the claude fields are a snapshot copy. -/
structure ManagedInstance where
  id : String
  name : String
  status : CStatus
  workingDirectory : String
  config : InstanceConfig
  worktreePath : String
  restartCount : Nat
deriving DecidableEq

/-- `PersonaRuntime` from `persona-runtime.ts`.  The field `inst` is the
source's `instance` field (a Lean keyword). -/
structure PersonaRuntime where
  personaId : String
  instanceId : String
  definition : PersonaDefinition
  state : PersonaState
  inst : ManagedInstance
deriving DecidableEq

/-- `ScheduledTask` from the scheduler.  Task ids `task-${n}` are modelled by
their numeric part `n`; `dependencies` is `[]` when the source has
`undefined` (both make the dependency guard pass vacuously); timestamps
dropped. -/
structure ScheduledTask where
  id : Nat
  personaType : String
  personaId : Option String
  priority : Priority
  description : String
  dependencies : List Nat
  status : TaskStatus
  result : Option String
  error : Option String
deriving DecidableEq

/-! ## Worktree manager (`worktree-manager.ts`) -/

/-- `path.join(os.homedir(), '.coding-team', 'worktrees')`. -/
def worktreesPath : String := "~/.coding-team/worktrees"

/-- Worktree manager state: the filesystem directories under
`worktreesPath` and the paths registered in git's worktree list. -/
structure WorktreeManagerSt where
  dirs : List String
  gitWorktrees : List String
deriving DecidableEq

/-- `WorktreeManager.removeWorktree`.  `git worktree remove --force` succeeds
when the external call succeeds and the path is a registered worktree;
otherwise the fallback runs: forced `rm` (modelled as always succeeding),
then `git worktree prune` (one external call); if the prune call fails the
wrapped `Failed to remove worktree` error is raised with the original
cause. -/
def WorktreeManagerSt.removeWorktree (w : WorktreeManagerSt) (p : String) (ext : Ext) :
    WorktreeManagerSt × Ext × Except String Unit :=
  let (r, ext1) := takeExt ext
  let execOk := match r with | .ok _ => true | .error _ => false
  if execOk && w.gitWorktrees.contains p then
    ({ dirs := w.dirs.filter (fun q => q != p),
       gitWorktrees := w.gitWorktrees.filter (fun q => q != p) }, ext1, .ok ())
  else
    let firstErr := match r with | .error e => e | .ok _ => "fatal: not a working tree"
    let w1 : WorktreeManagerSt := { w with dirs := w.dirs.filter (fun q => q != p) }
    let (r2, ext2) := takeExt ext1
    match r2 with
    | .ok _ =>
      ({ w1 with gitWorktrees := w1.gitWorktrees.filter (fun q => w1.dirs.contains q) },
       ext2, .ok ())
    | .error _ => (w1, ext2, .error ("Failed to remove worktree: " ++ firstErr))

/-- `WorktreeManager.createWorktree`: `mkdir` the directory, run
`git worktree add` (one external call; the branch argument only changes the
command line), and on failure roll back with `removeWorktree` (its own
errors swallowed) and raise the wrapped error embedding the cause. -/
def WorktreeManagerSt.createWorktree (w : WorktreeManagerSt) (instanceId : String)
    (_branch : Option String) (ext : Ext) :
    WorktreeManagerSt × Ext × Except String String :=
  let p := worktreesPath ++ "/" ++ instanceId
  let w1 : WorktreeManagerSt :=
    { w with dirs := if w.dirs.contains p then w.dirs else w.dirs ++ [p] }
  let (r, ext1) := takeExt ext
  match r with
  | .ok _ => ({ w1 with gitWorktrees := w1.gitWorktrees ++ [p] }, ext1, .ok p)
  | .error e =>
    let (w2, ext2, _) := w1.removeWorktree p ext1
    (w2, ext2, .error ("Failed to create worktree: " ++ e))

/-- `WorktreeManager.listWorktrees`: one external call parsing
`git worktree list --porcelain`; on success it reports the registered
worktree paths (the head/branch/flag fields of the porcelain format carry no
information used by any property here). -/
def WorktreeManagerSt.listWorktrees (w : WorktreeManagerSt) (ext : Ext) :
    Ext × Except String (List String) :=
  let (r, ext1) := takeExt ext
  match r with
  | .ok _ => (ext1, .ok w.gitWorktrees)
  | .error e => (ext1, .error ("Failed to list worktrees: " ++ e))

/-! ## Claude manager (`claude-manager.ts`) -/

/-- Claude manager state. -/
structure ClaudeManagerSt where
  instances : List ClaudeInstance
  instanceCounter : Nat
deriving DecidableEq

/-- `ClaudeManager.getInstance`. -/
def ClaudeManagerSt.getInstance (c : ClaudeManagerSt) (id : String) : Option ClaudeInstance :=
  c.instances.find? (fun i => i.id == id)

/-- Set one claude instance's status (JS mutates the shared object). -/
def ClaudeManagerSt.setStatus (c : ClaudeManagerSt) (id : String) (st : CStatus) :
    ClaudeManagerSt :=
  { c with instances := c.instances.map (fun i => if i.id == id then { i with status := st } else i) }

/-- `ClaudeManager.createInstance`: id `claude-${++counter}`, status `ready`. -/
def ClaudeManagerSt.createInstance (c : ClaudeManagerSt) (name workDir : String) :
    ClaudeManagerSt × ClaudeInstance :=
  let id := "claude-" ++ toString (c.instanceCounter + 1)
  let inst : ClaudeInstance := { id := id, name := name, status := .ready, workingDirectory := workDir }
  ({ instances := setByKey (fun i => i.id) c.instances inst,
     instanceCounter := c.instanceCounter + 1 }, inst)

/-- `ClaudeManager.sendMessage`: requires the instance to exist and be
`ready`; flips to `busy`, performs one external agent call, then `ready` on
success (result payload from the script) or `error` on failure,
re-raising the failure. -/
def ClaudeManagerSt.sendMessage (c : ClaudeManagerSt) (id _msg : String) (ext : Ext) :
    ClaudeManagerSt × Ext × Except String String :=
  match c.getInstance id with
  | none => (c, ext, .error ("Instance " ++ id ++ " not found"))
  | some inst =>
    if inst.status != .ready then
      (c, ext, .error ("Instance " ++ id ++ " is not ready. Current status: " ++ cStatusText inst.status))
    else
      let c1 := c.setStatus id .busy
      match takeExt ext with
      | (.ok r, ext1) => (c1.setStatus id .ready, ext1, .ok r)
      | (.error e, ext1) => (c1.setStatus id .error, ext1, .error e)

/-- `ClaudeManager.stopInstance`: abort (no-op here), mark `stopped`, delete
from the live set; fails when the instance no longer exists. -/
def ClaudeManagerSt.stopInstance (c : ClaudeManagerSt) (id : String) :
    ClaudeManagerSt × Except String Unit :=
  match c.getInstance id with
  | none => (c, .error ("Instance " ++ id ++ " not found"))
  | some _ =>
    ({ c with instances := c.instances.filter (fun i => i.id != id) }, .ok ())

/-! ## Instance manager (`instance-manager.ts`) -/

/-- Events the instance manager emits that matter to the claims. -/
inductive IMEvent where
  | healthCheckFailed (inst : ManagedInstance)
  | restarted (inst : ManagedInstance)
  | restartFailed (inst : ManagedInstance)
  | maxRestartsExceeded (inst : ManagedInstance)
deriving DecidableEq

/-- Instance manager state (options reduced to the one read field
`maxRestartAttempts`; the health-check timer interval is not modelled, the
health tick itself is a transition). -/
structure InstanceManagerSt where
  claude : ClaudeManagerSt
  worktree : WorktreeManagerSt
  instances : List ManagedInstance
  maxRestartAttempts : Nat
deriving DecidableEq

/-- `InstanceManager.getInstance`. -/
def InstanceManagerSt.getInstance (m : InstanceManagerSt) (id : String) : Option ManagedInstance :=
  m.instances.find? (fun i => i.id == id)

/-- `InstanceManager.spawnInstance` (`now` is the `Date.now()` value used in
the worktree name): create the worktree, create the claude instance, register
the managed instance, then apply the system prompt as the first message when
present.  Any failure is re-thrown wrapped as `Failed to spawn instance`;
mutations made before the failing step persist, as in the source. -/
def InstanceManagerSt.spawnInstance (m : InstanceManagerSt) (cfg : InstanceConfig)
    (now : Nat) (ext : Ext) : InstanceManagerSt × Ext × Except String ManagedInstance :=
  let (w1, ext1, wres) := m.worktree.createWorktree (cfg.type ++ "-" ++ toString now) cfg.branch ext
  let m1 : InstanceManagerSt := { m with worktree := w1 }
  match wres with
  | .error e => (m1, ext1, .error ("Failed to spawn instance: " ++ e))
  | .ok wpath =>
    let (c1, inst) := m1.claude.createInstance cfg.name wpath
    let managed : ManagedInstance :=
      { id := inst.id, name := inst.name, status := inst.status,
        workingDirectory := inst.workingDirectory, config := cfg,
        worktreePath := wpath, restartCount := 0 }
    let m2 : InstanceManagerSt :=
      { m1 with claude := c1, instances := setByKey (fun i => i.id) m1.instances managed }
    match cfg.systemPrompt with
    | none => (m2, ext1, .ok managed)
    | some prompt =>
      let (c2, ext2, sres) := m2.claude.sendMessage managed.id prompt ext1
      let m3 : InstanceManagerSt := { m2 with claude := c2 }
      match sres with
      | .ok _ => (m3, ext2, .ok managed)
      | .error e => (m3, ext2, .error ("Failed to spawn instance: " ++ e))

/-- `InstanceManager.terminateInstance`: stop the claude instance, remove the
worktree, delete the bookkeeping entry.  Failures are wrapped; mutations made
before the failing step persist. -/
def InstanceManagerSt.terminateInstance (m : InstanceManagerSt) (id : String) (ext : Ext) :
    InstanceManagerSt × Ext × Except String Unit :=
  match m.getInstance id with
  | none => (m, ext, .error ("Instance " ++ id ++ " not found"))
  | some inst =>
    let (c1, cres) := m.claude.stopInstance id
    let m1 : InstanceManagerSt := { m with claude := c1 }
    match cres with
    | .error e => (m1, ext, .error ("Failed to terminate instance: " ++ e))
    | .ok _ =>
      let (w1, ext1, wres) := m1.worktree.removeWorktree inst.worktreePath ext
      let m2 : InstanceManagerSt := { m1 with worktree := w1 }
      match wres with
      | .error e => (m2, ext1, .error ("Failed to terminate instance: " ++ e))
      | .ok _ =>
        ({ m2 with instances := m2.instances.filter (fun i => i.id != id) }, ext1, .ok ())

/-- `InstanceManager.restartInstance`: refuse above the restart cap; stop the
old process, create a replacement claude instance bound to the same worktree,
register it under the new identity with restart count incremented, emit
`instanceRestarted`, then re-apply the system prompt when present. -/
def InstanceManagerSt.restartInstance (m : InstanceManagerSt) (id : String) (ext : Ext) :
    InstanceManagerSt × Ext × List IMEvent × Except String ManagedInstance :=
  match m.getInstance id with
  | none => (m, ext, [], .error ("Instance " ++ id ++ " not found"))
  | some inst =>
    if m.maxRestartAttempts ≤ inst.restartCount then
      (m, ext, [], .error ("Instance " ++ id ++ " has exceeded max restart attempts"))
    else
      let (c1, cres) := m.claude.stopInstance id
      let m1 : InstanceManagerSt := { m with claude := c1 }
      match cres with
      | .error e => (m1, ext, [], .error ("Failed to restart instance: " ++ e))
      | .ok _ =>
        let (c2, newInst) := m1.claude.createInstance inst.config.name inst.worktreePath
        let newManaged : ManagedInstance :=
          { id := newInst.id, name := newInst.name, status := newInst.status,
            workingDirectory := newInst.workingDirectory, config := inst.config,
            worktreePath := inst.worktreePath, restartCount := inst.restartCount + 1 }
        let m2 : InstanceManagerSt :=
          { m1 with claude := c2,
                    instances := setByKey (fun i => i.id)
                      (m1.instances.filter (fun i => i.id != id)) newManaged }
        let evs := [IMEvent.restarted newManaged]
        match inst.config.systemPrompt with
        | none => (m2, ext, evs, .ok newManaged)
        | some prompt =>
          let (c3, ext1, sres) := m2.claude.sendMessage newManaged.id prompt ext
          let m3 : InstanceManagerSt := { m2 with claude := c3 }
          match sres with
          | .ok _ => (m3, ext1, evs, .ok newManaged)
          | .error e => (m3, ext1, evs, .error ("Failed to restart instance: " ++ e))

/-- `InstanceManager.handleInstanceError`: emit the health-check-failed
notification, then attempt an automatic restart when under the cap (emitting
`instanceRestartFailed` when that restart throws), otherwise emit the
terminal `instanceMaxRestartsExceeded` signal and do nothing else. -/
def InstanceManagerSt.handleInstanceError (m : InstanceManagerSt) (inst : ManagedInstance)
    (ext : Ext) : InstanceManagerSt × Ext × List IMEvent :=
  let evs := [IMEvent.healthCheckFailed inst]
  if inst.restartCount < m.maxRestartAttempts then
    let (m1, ext1, evs1, res) := m.restartInstance inst.id ext
    match res with
    | .ok _ => (m1, ext1, evs ++ evs1)
    | .error _ => (m1, ext1, evs ++ evs1 ++ [IMEvent.restartFailed inst])
  else
    (m, ext, evs ++ [IMEvent.maxRestartsExceeded inst])

/-! ## Persona environment (`persona-runtime.ts`) -/

deriving instance DecidableEq for Except

/-- Persona environment state.  `clock` models `Date.now()` (one tick per
call); `ext` is the external-outcome script threaded through the underlying
managers.  The inter-persona message queue is not modelled: no claim touches
`sendInterPersonaMessage`/`deliverQueuedMessages`. -/
structure EnvSt where
  instMgr : InstanceManagerSt
  store : List PersonaDefinition
  activePersonas : List PersonaRuntime
  clock : Nat
  ext : Ext
deriving DecidableEq

/-- One `Date.now()` call. -/
def EnvSt.tick (s : EnvSt) : Nat × EnvSt := (s.clock, { s with clock := s.clock + 1 })

/-- `PersonaStore.getPersona`. -/
def EnvSt.getPersonaDef (s : EnvSt) (id : String) : Option PersonaDefinition :=
  s.store.find? (fun d => d.id == id)

/-- `PersonaEnvironment.getActivePersona`. -/
def EnvSt.getActivePersona (s : EnvSt) (pid : String) : Option PersonaRuntime :=
  s.activePersonas.find? (fun r => r.personaId == pid)

/-- `PersonaEnvironment.getActivePersonasByType`. -/
def EnvSt.getActivePersonasByType (s : EnvSt) (ty : String) : List PersonaRuntime :=
  s.activePersonas.filter (fun r => r.definition.type == ty)

/-- `PersonaEnvironment.findRuntimeByInstanceId`. -/
def EnvSt.findRuntimeByInstanceId (s : EnvSt) (instanceId : String) : Option PersonaRuntime :=
  s.activePersonas.find? (fun r => r.instanceId == instanceId)

/-- Mutate the state object of the runtime keyed `pid` (JS mutates the shared
object in the map). -/
def EnvSt.modifyRuntimeState (s : EnvSt) (pid : String) (f : PersonaState → PersonaState) : EnvSt :=
  { s with activePersonas :=
      s.activePersonas.map (fun r => if r.personaId == pid then { r with state := f r.state } else r) }

/-- `PersonaEnvironment.buildSystemPrompt`. -/
def buildSystemPrompt (d : PersonaDefinition) : String :=
  let p1 := d.systemPrompt
  let p2 := match d.guidelines with
    | some g => p1 ++ "\n\nProject-specific guidelines:\n" ++ g
    | none => p1
  let caps := String.intercalate ", " ((d.capabilities.filter (fun c => c.enabled)).map (fun c => c.name))
  let p3 := p2 ++ "\n\nYour enabled capabilities: " ++ caps
  match d.constraints with
  | none => p3
  | some c =>
    let q1 := match c.allowedBranches with
      | some bs => p3 ++ "\n\nYou can only work on branches: " ++ String.intercalate ", " bs
      | none => p3
    match c.restrictedPaths with
    | some ps => q1 ++ "\n\nYou cannot modify files in: " ++ String.intercalate ", " ps
    | none => q1

/-- `PersonaEnvironment.sendMessageToPersona`: requires the runtime to exist;
sets status `busy`, delegates to the instance manager's send path, restores
`active` on success or records `error` plus the last-error statistic on
failure, propagating the failure. -/
def EnvSt.sendMessageToPersona (s : EnvSt) (pid msg : String) : EnvSt × Except String String :=
  match s.getActivePersona pid with
  | none => (s, .error ("Persona " ++ pid ++ " is not active"))
  | some r =>
    let s1 := s.modifyRuntimeState pid (fun st => { st with status := .busy })
    let (m1, ext1, res) : InstanceManagerSt × Ext × Except String String :=
      match s1.instMgr.getInstance r.instanceId with
      | none => (s1.instMgr, s1.ext, .error ("Instance " ++ r.instanceId ++ " not found"))
      | some _ =>
        let (c1, ext1, res) := s1.instMgr.claude.sendMessage r.instanceId msg s1.ext
        ({ s1.instMgr with claude := c1 }, ext1, res)
    let s2 : EnvSt := { s1 with instMgr := m1, ext := ext1 }
    match res with
    | .ok resp => (s2.modifyRuntimeState pid (fun st => { st with status := .active }), .ok resp)
    | .error e =>
      (s2.modifyRuntimeState pid
        (fun st => { st with status := .error,
                             statistics := { st.statistics with lastError := some e } }),
       .error e)

/-- `PersonaEnvironment.spawnPersona`: look up the role, enforce the
singleton constraint, build the runtime id (role id verbatim for singletons,
`Date.now()`-suffixed otherwise), spawn a managed instance with the composed
system prompt, register the runtime with status `idle`, then send the
initialization message and flip to `active`.  Failures propagate; mutations
made before the failing step persist (in particular the runtime registration
precedes the initialization send). -/
def EnvSt.spawnPersona (s : EnvSt) (personaId : String) (taskDescription : Option String) :
    EnvSt × Except String PersonaRuntime :=
  match s.getPersonaDef personaId with
  | none => (s, .error ("Persona " ++ personaId ++ " not found"))
  | some d =>
    if d.singleton && (s.activePersonas.find? (fun r => r.definition.id == personaId)).isSome then
      (s, .error ("Singleton persona " ++ personaId ++ " is already running"))
    else
      let (runtimeId, s0) :=
        if d.singleton then (personaId, s)
        else
          let (n, s') := s.tick
          (personaId ++ "-" ++ toString n, s')
      let cfg : InstanceConfig :=
        { name := d.name ++ " (" ++ runtimeId ++ ")", type := d.type,
          branch := none, systemPrompt := some (buildSystemPrompt d) }
      let (n2, s1) := s0.tick
      let (m1, ext1, ires) := s1.instMgr.spawnInstance cfg n2 s1.ext
      let s2 : EnvSt := { s1 with instMgr := m1, ext := ext1 }
      match ires with
      | .error e => (s2, .error e)
      | .ok inst =>
        let st : PersonaState :=
          { personaId := personaId, instanceId := inst.id, status := .idle,
            currentTask := taskDescription,
            memory := { shortTerm := [], workingMemory := [], persistentFacts := [] },
            statistics := { tasksCompleted := 0, tasksFailed := 0, totalActiveTime := 0,
                            lastError := none } }
        let r : PersonaRuntime :=
          { personaId := runtimeId, instanceId := inst.id, definition := d,
            state := st, inst := inst }
        let s3 : EnvSt := { s2 with activePersonas := setByKey (fun x => x.personaId) s2.activePersonas r }
        let initMessage := "You are now active as " ++ d.name ++ ". " ++
          (match st.currentTask with
           | some td => "Your current task is: " ++ td
           | none => "Awaiting task assignment.")
        let (s4, mres) := s3.sendMessageToPersona runtimeId initMessage
        match mres with
        | .error e => (s4, .error e)
        | .ok _ =>
          let s5 := s4.modifyRuntimeState runtimeId (fun st => { st with status := .active })
          (s5, .ok { r with state := { st with status := .active } })

/-- `PersonaEnvironment.terminatePersona`: requires the runtime to exist,
terminates the underlying managed instance, then removes the runtime.  When
the instance termination fails the runtime stays registered, as in the
source. -/
def EnvSt.terminatePersona (s : EnvSt) (pid : String) : EnvSt × Except String Unit :=
  match s.getActivePersona pid with
  | none => (s, .error ("Persona " ++ pid ++ " is not active"))
  | some r =>
    let (m1, ext1, tres) := s.instMgr.terminateInstance r.instanceId s.ext
    let s1 : EnvSt := { s with instMgr := m1, ext := ext1 }
    match tres with
    | .error e => (s1, .error e)
    | .ok _ =>
      ({ s1 with activePersonas := s1.activePersonas.filter (fun x => x.personaId != pid) }, .ok ())

/-- The `instanceError` handler in `PersonaEnvironment.setupEventHandlers`:
find the owning runtime by instance id, flip it to `error`, record the
last-error statistic. -/
def EnvSt.onInstanceError (s : EnvSt) (instanceId errMsg : String) : EnvSt :=
  match s.findRuntimeByInstanceId instanceId with
  | some r =>
    s.modifyRuntimeState r.personaId
      (fun st => { st with status := .error,
                           statistics := { st.statistics with lastError := some errMsg } })
  | none => s

/-- The `instanceRestarted` handler in
`PersonaEnvironment.setupEventHandlers`: the handler receives the replacement
instance and looks the runtime up by that NEW instance id (`instance.id`),
rebinding `runtime.instance`/`runtime.instanceId` when a runtime is found. -/
def EnvSt.onInstanceRestarted (s : EnvSt) (inst : ManagedInstance) : EnvSt :=
  match s.findRuntimeByInstanceId inst.id with
  | some r =>
    { s with activePersonas :=
        s.activePersonas.map (fun x =>
          if x.personaId == r.personaId then { x with inst := inst, instanceId := inst.id } else x) }
  | none => s

/-- Run `InstanceManager.restartInstance` and deliver its emitted
`instanceRestarted` events to the persona environment's handler. -/
def EnvSt.restartInstanceWithEvents (s : EnvSt) (instanceId : String) :
    EnvSt × Except String ManagedInstance :=
  let (m1, ext1, evs, res) := s.instMgr.restartInstance instanceId s.ext
  let s1 : EnvSt := { s with instMgr := m1, ext := ext1 }
  let s2 := evs.foldl
    (fun acc ev => match ev with
      | IMEvent.restarted i => acc.onInstanceRestarted i
      | _ => acc) s1
  (s2, res)

/-! ## Persona scheduler (`persona-scheduler.ts`) -/

/-- The argument of `scheduleTask` (`Omit<ScheduledTask, 'id' | 'status' |
'createdAt'>`, the fields the scheduler reads). -/
structure TaskSpec where
  personaType : String
  personaId : Option String
  priority : Priority
  description : String
  dependencies : List Nat
deriving DecidableEq

/-- Scheduler state.  `monitors` records the live `monitorTaskCompletion`
intervals as (task id, runtime id of the persona captured at assignment). -/
structure SchedSt where
  env : EnvSt
  tasks : List ScheduledTask
  taskCounter : Nat
  maxConcurrentPersonas : Nat
  maxPersonasPerType : List (String × Nat)
  monitors : List (Nat × String)
deriving DecidableEq

/-- `taskQueue.get`. -/
def SchedSt.findTask (s : SchedSt) (tid : Nat) : Option ScheduledTask :=
  s.tasks.find? (fun t => t.id == tid)

/-- Mutate the task object keyed `tid` (JS mutates the shared object). -/
def SchedSt.modifyTask (s : SchedSt) (tid : Nat) (f : ScheduledTask → ScheduledTask) : SchedSt :=
  { s with tasks := s.tasks.map (fun t => if t.id == tid then f t else t) }

/-- Replace the environment. -/
def SchedSt.withEnv (s : SchedSt) (e : EnvSt) : SchedSt := { s with env := e }

/-- `PersonaScheduler.getPendingTasks`. -/
def SchedSt.getPendingTasks (s : SchedSt) : List ScheduledTask :=
  s.tasks.filter (fun t => t.status == .pending)

/-- `maxPersonasPerType.get(type) || 1`: JS `||` turns a missing entry or a
zero cap into the default 1. -/
def SchedSt.maxForType (s : SchedSt) (ty : String) : Nat :=
  match s.maxPersonasPerType.find? (fun e => e.1 == ty) with
  | some e => if e.2 == 0 then 1 else e.2
  | none => 1

/-- Dependency lookup of `canScheduleTask`: `dep && dep.status ===
'completed'`. -/
def SchedSt.depOkB (s : SchedSt) (depId : Nat) : Bool :=
  match s.findTask depId with
  | some dep => dep.status == .completed
  | none => false

/-- `PersonaScheduler.canScheduleTask`: every dependency completed, and the
per-type active-persona count below its cap or an idle persona of that type
available. -/
def SchedSt.canScheduleTask (s : SchedSt) (t : ScheduledTask) : Bool :=
  if 0 < t.dependencies.length && !(t.dependencies.all (fun d => s.depOkB d)) then
    false
  else
    let act := s.env.getActivePersonasByType t.personaType
    if s.maxForType t.personaType ≤ act.length then
      (act.find? (fun p => p.state.status == .idle)).isSome
    else true

/-- `PersonaScheduler.getPersonaIdForType`. -/
def getPersonaIdForType (ty : String) : String :=
  if ty == "developer" then "developer-pool"
  else if ty == "manager" then "manager"
  else if ty == "pr-reviewer" then "pr-reviewer"
  else if ty == "landing-manager" then "landing-manager"
  else if ty == "ci-monitor" then "ci-monitor"
  else if ty == "backlog-manager" then "backlog-manager"
  else if ty == "qa-engineer" then "qa-engineer"
  else ty

/-- The hand-off inside `assignTaskToPersona` once a runtime is available:
mark the task assigned and record the runtime id, set the persona's current
task, deliver the task-announcement message, then mark the task running and
start completion monitoring; a send failure is caught and marks the task
failed with the failure's message.  The returned flag reports whether the
`taskAssigned` hand-off was reached. -/
def SchedSt.handoff (s : SchedSt) (t : ScheduledTask) (r : PersonaRuntime) : SchedSt × Bool :=
  let s1 := s.modifyTask t.id (fun u => { u with status := .assigned, personaId := some r.personaId })
  let s2 := s1.withEnv (s1.env.modifyRuntimeState r.personaId
    (fun st => { st with currentTask := some t.description }))
  let (e1, res) := s2.env.sendMessageToPersona r.personaId ("New task assigned: " ++ t.description)
  let s3 := s2.withEnv e1
  match res with
  | .ok _ =>
    ({ s3.modifyTask t.id (fun u => { u with status := .running }) with
        monitors := (t.id, r.personaId) :: s3.monitors }, true)
  | .error e =>
    (s3.modifyTask t.id (fun u => { u with status := .failed, error := some e }), true)

/-- `PersonaScheduler.assignTaskToPersona`: prefer the pinned persona when
the task names one, else an idle persona of the target type, else spawn a new
persona via the type's default persona id; spawn failures are caught and mark
only this task failed. -/
def SchedSt.assignTaskToPersona (s : SchedSt) (t : ScheduledTask) : SchedSt × Bool :=
  let rOpt : Option PersonaRuntime :=
    match t.personaId with
    | some pid => s.env.getActivePersona pid
    | none => (s.env.getActivePersonasByType t.personaType).find? (fun p => p.state.status == .idle)
  match rOpt with
  | some r => s.handoff t r
  | none =>
    let (e1, res) := s.env.spawnPersona (getPersonaIdForType t.personaType) (some t.description)
    let s1 := s.withEnv e1
    match res with
    | .ok r => s1.handoff t r
    | .error e =>
      (s1.modifyTask t.id (fun u => { u with status := .failed, error := some e }), false)

/-- Stable insertion into a list sorted ascending by `priorityOrder`; the new
element goes after every already-placed element with priority not greater,
which is the stable behaviour required of `Array.prototype.sort`. -/
def insertByPriority (x : ScheduledTask) : List ScheduledTask → List ScheduledTask
  | [] => [x]
  | y :: ys =>
    if priorityOrder y.priority ≤ priorityOrder x.priority then y :: insertByPriority x ys
    else x :: y :: ys

/-- The stable sort `pendingTasks.sort((a, b) => priorityOrder[a.priority] -
priorityOrder[b.priority])`. -/
def jsSortTasks (l : List ScheduledTask) : List ScheduledTask :=
  l.foldl (fun acc x => insertByPriority x acc) []

/-- The `for` loop of `scheduleNextTasks`: attempt each sorted pending task
in turn, assigning the eligible ones; returns the ids handed off, in order. -/
def SchedSt.passFold (s : SchedSt) : List ScheduledTask → SchedSt × List Nat
  | [] => (s, [])
  | t :: rest =>
    if s.canScheduleTask t then
      let (s1, flag) := s.assignTaskToPersona t
      let (s2, log) := s1.passFold rest
      (s2, (if flag then [t.id] else []) ++ log)
    else s.passFold rest

/-- `PersonaScheduler.scheduleNextTasks`: skip when there is nothing pending
or the global persona cap is reached, else sort the pending snapshot by
priority and attempt each task. -/
def SchedSt.scheduleNextTasks (s : SchedSt) : SchedSt × List Nat :=
  let pending := s.getPendingTasks
  if pending.length == 0 then (s, [])
  else if s.maxConcurrentPersonas ≤ s.env.activePersonas.length then (s, [])
  else s.passFold (jsSortTasks pending)

/-- The queue insertion of `scheduleTask`: id `task-${++taskCounter}`,
status `pending`. -/
def SchedSt.insertTask (s : SchedSt) (spec : TaskSpec) : SchedSt × Nat :=
  let tid := s.taskCounter + 1
  let t : ScheduledTask :=
    { id := tid, personaType := spec.personaType, personaId := spec.personaId,
      priority := spec.priority, description := spec.description,
      dependencies := spec.dependencies, status := .pending, result := none, error := none }
  ({ s with taskCounter := tid, tasks := setByKey (fun u => u.id) s.tasks t }, tid)

/-- `PersonaScheduler.scheduleTask`: insert the pending task, then run one
assignment pass before returning the new id. -/
def SchedSt.scheduleTask (s : SchedSt) (spec : TaskSpec) : SchedSt × Nat × List Nat :=
  let (s1, tid) := s.insertTask spec
  let (s2, log) := s1.scheduleNextTasks
  (s2, tid, log)

/-- `PersonaScheduler.cancelTask`: unknown and terminal tasks fail before any
mutation; a running task with an assigned active persona idles that persona
and clears its current task; then the task is failed with the fixed
cancellation message. -/
def SchedSt.cancelTask (s : SchedSt) (tid : Nat) : SchedSt × Except String Unit :=
  match s.findTask tid with
  | none => (s, .error ("Task task-" ++ toString tid ++ " not found"))
  | some t =>
    if t.status == .completed || t.status == .failed then
      (s, .error ("Cannot cancel " ++ taskStatusText t.status ++ " task"))
    else
      let s1 :=
        if t.status == .running then
          match t.personaId with
          | some pid =>
            match s.env.getActivePersona pid with
            | some _ =>
              s.withEnv (s.env.modifyRuntimeState pid
                (fun st => { st with currentTask := none, status := .idle }))
            | none => s
          | none => s
        else s
      (s1.modifyTask tid (fun u => { u with status := .failed, error := some "Task cancelled" }),
       .ok ())

/-- One tick of the `monitorTaskCompletion` interval for `tid`: while the
monitor lives and the captured runtime is visible, a persona in `error`
fails the task with the persona's last error, a persona gone `idle`
completes the task and bumps the completed counter; both stop the
monitor. -/
def SchedSt.monitorTick (s : SchedSt) (tid : Nat) : SchedSt :=
  match s.monitors.find? (fun m => m.1 == tid) with
  | none => s
  | some m =>
    match s.env.getActivePersona m.2 with
    | none => s
    | some r =>
      if r.state.status == .error then
        { s.modifyTask tid (fun u => { u with status := .failed, error := r.state.statistics.lastError })
          with monitors := s.monitors.filter (fun x => x.1 != tid) }
      else if r.state.status == .idle then
        let s1 := s.modifyTask tid (fun u => { u with status := .completed })
        let s2 := s1.withEnv (s1.env.modifyRuntimeState m.2
          (fun st => { st with statistics :=
            { st.statistics with tasksCompleted := st.statistics.tasksCompleted + 1 } }))
        { s2 with monitors := s2.monitors.filter (fun x => x.1 != tid) }
      else s

/-- Lift `terminatePersona` to the scheduler state. -/
def SchedSt.terminatePersonaS (s : SchedSt) (pid : String) : SchedSt :=
  s.withEnv (s.env.terminatePersona pid).1

/-- Lift `sendMessageToPersona` to the scheduler state. -/
def SchedSt.sendMessageS (s : SchedSt) (pid msg : String) : SchedSt :=
  s.withEnv (s.env.sendMessageToPersona pid msg).1

/-! ## The scheduler transition system

One transition per externally triggerable operation of the single-threaded
source: a schedule request, the periodic assignment pass, a cancel request, a
completion-monitor tick, a persona termination, a message send, the deferred
`instanceError` handler, and the arrival of new external outcomes.  The
parameter `P` restricts which task specifications may be scheduled (used to
state scenario-specific invariants); direct `spawnPersona` calls are the
persona-environment API outside the scheduler's task workflow and are
covered by their own properties. -/

inductive SStep (P : TaskSpec → Prop) : SchedSt → SchedSt → Prop where
  | schedule (s : SchedSt) (spec : TaskSpec) (h : P spec) : SStep P s (s.scheduleTask spec).1
  | pass (s : SchedSt) : SStep P s s.scheduleNextTasks.1
  | cancel (s : SchedSt) (tid : Nat) : SStep P s (s.cancelTask tid).1
  | monitor (s : SchedSt) (tid : Nat) : SStep P s (s.monitorTick tid)
  | terminate (s : SchedSt) (pid : String) : SStep P s (s.terminatePersonaS pid)
  | sendMsg (s : SchedSt) (pid msg : String) : SStep P s (s.sendMessageS pid msg)
  | instErr (s : SchedSt) (iid emsg : String) :
      SStep P s (s.withEnv (s.env.onInstanceError iid emsg))
  | extPush (s : SchedSt) (e : Except String String) :
      SStep P s (s.withEnv { s.env with ext := s.env.ext ++ [e] })

/-- A freshly constructed scheduler over a given persona store and resource
constraints: empty tables, counters at zero. -/
def initSched (store : List PersonaDefinition) (mc : Nat) (mpt : List (String × Nat)) : SchedSt :=
  { env := { instMgr := { claude := { instances := [], instanceCounter := 0 },
                          worktree := { dirs := [], gitWorktrees := [] },
                          instances := [], maxRestartAttempts := 3 },
             store := store, activePersonas := [], clock := 0, ext := [] },
    tasks := [], taskCounter := 0, maxConcurrentPersonas := mc,
    maxPersonasPerType := mpt, monitors := [] }

/-- Reachability of scheduler states from a fresh scheduler, scheduling only
specifications allowed by `P`. -/
def ReachableP (P : TaskSpec → Prop) (store : List PersonaDefinition) (mc : Nat)
    (mpt : List (String × Nat)) (s : SchedSt) : Prop :=
  Relation.ReflTransGen (SStep P) (initSched store mc mpt) s

/-- Reachability with unrestricted schedule requests. -/
def Reachable (store : List PersonaDefinition) (mc : Nat) (mpt : List (String × Nat))
    (s : SchedSt) : Prop :=
  ReachableP (fun _ => True) store mc mpt s

/-! ## Concrete worlds used by witnesses and counterexamples -/

/-- The `developer-pool` role of the default persona store (fields reduced to
the ones the engine reads; non-singleton, as in the store). -/
def devDef : PersonaDefinition :=
  { id := "developer-pool", name := "Developer Pool", type := "developer",
    systemPrompt := "You are a developer.", capabilities := [],
    constraints := none, singleton := false, guidelines := none }

/-- The `manager` role of the default persona store (singleton). -/
def mgrDef : PersonaDefinition :=
  { id := "manager", name := "Team Manager", type := "manager",
    systemPrompt := "You coordinate.", capabilities := [],
    constraints := none, singleton := true, guidelines := none }

/-- A developer task specification without pinned persona or dependencies. -/
def devSpec (p : Priority) (d : String) : TaskSpec :=
  { personaType := "developer", personaId := none, priority := p,
    description := d, dependencies := [] }

/-- Fresh scheduler with the developer cap set to 2 (the C3 scenario). -/
def schedDevCap2 : SchedSt := initSched [devDef, mgrDef] 10 [("developer", 2)]

/-- Five developer tasks scheduled against a per-type cap of 2. -/
def c3Run : SchedSt :=
  (((((schedDevCap2.scheduleTask (devSpec .medium "t1")).1.scheduleTask
    (devSpec .medium "t2")).1.scheduleTask (devSpec .medium "t3")).1.scheduleTask
    (devSpec .medium "t4")).1.scheduleTask (devSpec .medium "t5")).1

/-! ## Generic helper lemmas -/

lemma find?_some_pred {A : Type} {p : A → Bool} {l : List A} {a : A}
    (h : l.find? p = some a) : p a = true :=
  List.find?_some h

lemma find?_map_pres {A : Type} {p : A → Bool} {g : A → A}
    (hg : ∀ a, p (g a) = p a) (l : List A) :
    (l.map g).find? p = (l.find? p).map g := by
  rw [List.find?_map]
  have h : p ∘ g = p := funext hg
  rw [h]

lemma findTask_modifyTask (s : SchedSt) (tid : Nat) (f : ScheduledTask → ScheduledTask)
    (hf : ∀ u, (f u).id = u.id) (d : Nat) :
    (s.modifyTask tid f).findTask d
      = (s.findTask d).map (fun u => if u.id == tid then f u else u) := by
  unfold SchedSt.modifyTask SchedSt.findTask
  exact find?_map_pres (fun a => by by_cases h : (a.id == tid) = true <;> simp [h, hf]) _

lemma findTask_modify_self (s : SchedSt) (tid : Nat) (t : ScheduledTask)
    (h : s.findTask tid = some t) (f : ScheduledTask → ScheduledTask)
    (hf : ∀ u, (f u).id = u.id) :
    (s.modifyTask tid f).findTask tid = some (f t) := by
  have h' : s.tasks.find? (fun u => u.id == tid) = some t := h
  have hb := find?_some_pred h'
  have heq : t.id = tid := by simpa using hb
  rw [findTask_modifyTask s tid f hf tid, h]
  simp [heq]

lemma getActivePersona_modifyRuntimeState (s : EnvSt) (pid : String)
    (f : PersonaState → PersonaState) (d : String) :
    (s.modifyRuntimeState pid f).getActivePersona d
      = (s.getActivePersona d).map
          (fun r => if r.personaId == pid then { r with state := f r.state } else r) := by
  unfold EnvSt.modifyRuntimeState EnvSt.getActivePersona
  exact find?_map_pres (fun a => by by_cases h : (a.personaId == pid) = true <;> simp [h]) _

lemma getActivePersona_modify_self (s : EnvSt) (pid : String) (r : PersonaRuntime)
    (h : s.getActivePersona pid = some r) (f : PersonaState → PersonaState) :
    (s.modifyRuntimeState pid f).getActivePersona pid = some { r with state := f r.state } := by
  have h' : s.activePersonas.find? (fun x => x.personaId == pid) = some r := h
  have hb := find?_some_pred h'
  have heq : r.personaId = pid := by simpa using hb
  rw [getActivePersona_modifyRuntimeState, h]
  simp [heq]

lemma modifyTask_env (s : SchedSt) (tid : Nat) (f : ScheduledTask → ScheduledTask) :
    (s.modifyTask tid f).env = s.env := rfl

/-! ## C6: cancelTask -/

/-- C6.  `cancelTask` on a `completed` or `failed` task throws and leaves the
scheduler state unchanged; on a `pending` task it marks the task `failed`
with error text exactly "Task cancelled" and does not touch the environment;
on a `running` task whose assigned persona is active it additionally clears
that persona's current task and idles it. -/
theorem cancelTask_spec (s : SchedSt) (tid : Nat) (t : ScheduledTask)
    (h : s.findTask tid = some t) :
    ((t.status = .completed ∨ t.status = .failed) →
       s.cancelTask tid = (s, .error ("Cannot cancel " ++ taskStatusText t.status ++ " task")))
  ∧ (t.status = .pending →
       (s.cancelTask tid).2 = .ok () ∧
       (s.cancelTask tid).1.findTask tid
         = some { t with status := .failed, error := some "Task cancelled" } ∧
       (s.cancelTask tid).1.env = s.env)
  ∧ (∀ pid r, t.status = .running → t.personaId = some pid →
       s.env.getActivePersona pid = some r →
       (s.cancelTask tid).2 = .ok () ∧
       (s.cancelTask tid).1.findTask tid
         = some { t with status := .failed, error := some "Task cancelled" } ∧
       (s.cancelTask tid).1.env.getActivePersona pid
         = some { r with state := { r.state with currentTask := none, status := .idle } }) := by
  refine ⟨?_, ?_, ?_⟩
  · rintro (hst | hst) <;> simp [SchedSt.cancelTask, h, hst]
  · intro hst
    have e1 : s.cancelTask tid
        = (s.modifyTask tid (fun u => { u with status := .failed, error := some "Task cancelled" }),
           .ok ()) := by
      simp [SchedSt.cancelTask, h, hst]
    refine ⟨by rw [e1], ?_, by rw [e1]; rfl⟩
    rw [e1]
    exact findTask_modify_self s tid t h _ (fun u => rfl)

  · intro pid r hst hpid hr
    have e1 : s.cancelTask tid
        = ((s.withEnv (s.env.modifyRuntimeState pid
              (fun st => { st with currentTask := none, status := .idle }))).modifyTask tid
             (fun u => { u with status := .failed, error := some "Task cancelled" }),
           .ok ()) := by
      simp [SchedSt.cancelTask, h, hst, hpid, hr]
    refine ⟨by rw [e1], ?_, ?_⟩
    · rw [e1]
      exact findTask_modify_self _ tid t h _ (fun u => rfl)
    · rw [e1]
      exact getActivePersona_modify_self s.env pid r hr _

/-- The first task of the concrete five-task run, after assignment. -/
def c6Task : ScheduledTask :=
  { id := 1, personaType := "developer", personaId := some "developer-pool-0",
    priority := .medium, description := "t1", dependencies := [],
    status := .running, result := none, error := none }

/-- The first spawned developer runtime of the concrete five-task run. -/
def c6Runtime : PersonaRuntime :=
  { personaId := "developer-pool-0", instanceId := "claude-1", definition := devDef,
    state := { personaId := "developer-pool", instanceId := "claude-1",
               status := .active, currentTask := some "t1",
               memory := { shortTerm := [], workingMemory := [], persistentFacts := [] },
               statistics := { tasksCompleted := 0, tasksFailed := 0, totalActiveTime := 0,
                               lastError := none } },
    inst := { id := "claude-1", name := "Developer Pool (developer-pool-0)",
              status := .ready,
              workingDirectory := worktreesPath ++ "/developer-1",
              config := { name := "Developer Pool (developer-pool-0)", type := "developer",
                          branch := none,
                          systemPrompt := some (buildSystemPrompt devDef) },
              worktreePath := worktreesPath ++ "/developer-1", restartCount := 0 } }

theorem cancelTask_spec_witness :
    (c3Run.cancelTask 1).2 = .ok () ∧
    ((c3Run.cancelTask 1).1.findTask 1).map (fun u => (u.status, u.error))
      = some (TaskStatus.failed, some "Task cancelled") ∧
    ((c3Run.cancelTask 1).1.env.getActivePersona "developer-pool-0").map
      (fun r => (r.state.status, r.state.currentTask))
      = some (PersonaStatus.idle, none) := by
  have ht : c3Run.findTask 1 = some c6Task := by decide
  have hr : c3Run.env.getActivePersona "developer-pool-0" = some c6Runtime := by decide
  have H := (cancelTask_spec c3Run 1 c6Task ht).2.2 "developer-pool-0" c6Runtime
    (by decide) (by decide) hr
  obtain ⟨h1, h2, h3⟩ := H
  refine ⟨h1, ?_, ?_⟩
  · rw [h2]; rfl
  · rw [h3]; rfl

/-! ## C8: workspace allocation failure -/

/-- The worktree path `spawnInstance` derives for a config and a
`Date.now()` value. -/
def spawnWorktreePath (cfg : InstanceConfig) (now : Nat) : String :=
  worktreesPath ++ "/" ++ (cfg.type ++ "-" ++ toString now)

/-- C8.  When the `git worktree add` of workspace allocation fails,
`spawnInstance` fails with the wrapped error embedding the root cause,
registers no managed instance and no agent instance, the partially created
directory is rolled back, the failed path is not registered in git's
worktree list, and a subsequent successful `listWorktrees` therefore does
not include it. -/
lemma contains_false_of_not_mem {l : List String} {a : String} (h : a ∉ l) :
    l.contains a = false := by simp [h]

/-- The `mkdir` step of `createWorktree` on the directory set. -/
def mkdirStep (w : WorktreeManagerSt) (p : String) : WorktreeManagerSt :=
  { w with dirs := if w.dirs.contains p then w.dirs else w.dirs ++ [p] }

/-- After `removeWorktree` on a path git does not know, the path's directory
is gone and the git worktree registry has only shrunk. -/
lemma removeWorktree_not_registered (w : WorktreeManagerSt) (p : String) (ext : Ext)
    (hp : p ∉ w.gitWorktrees) :
    (w.removeWorktree p ext).1.dirs = w.dirs.filter (fun q => q != p)
  ∧ ∀ q, q ∈ (w.removeWorktree p ext).1.gitWorktrees → q ∈ w.gitWorktrees := by
  have hc : w.gitWorktrees.contains p = false := contains_false_of_not_mem hp
  rcases ext with _ | ⟨e1, ext1⟩
  · constructor <;> simp [WorktreeManagerSt.removeWorktree, takeExt, hc, hp] <;> tauto
  · rcases ext1 with _ | ⟨e2, ext2⟩ <;> rcases e1 with v | v
    all_goals try rcases e2 with v2 | v2
    all_goals constructor <;>
      simp [WorktreeManagerSt.removeWorktree, takeExt, hc, hp] <;> tauto

/-- C8.  When the `git worktree add` of workspace allocation fails,
`spawnInstance` fails with the wrapped error embedding the root cause,
registers no managed instance and no agent instance, the partially created
directory is rolled back, the failed path is not registered in git's
worktree list, and a subsequent successful `listWorktrees` therefore does
not include it. -/
theorem spawnInstance_worktree_failure (m : InstanceManagerSt) (cfg : InstanceConfig)
    (now : Nat) (cause : String) (rest : Ext)
    (hp : spawnWorktreePath cfg now ∉ m.worktree.gitWorktrees) :
    (m.spawnInstance cfg now (.error cause :: rest)).2.2
      = .error ("Failed to spawn instance: " ++ ("Failed to create worktree: " ++ cause))
  ∧ (m.spawnInstance cfg now (.error cause :: rest)).1.instances = m.instances
  ∧ (m.spawnInstance cfg now (.error cause :: rest)).1.claude = m.claude
  ∧ spawnWorktreePath cfg now ∉ (m.spawnInstance cfg now (.error cause :: rest)).1.worktree.dirs
  ∧ spawnWorktreePath cfg now ∉ (m.spawnInstance cfg now (.error cause :: rest)).1.worktree.gitWorktrees
  ∧ ∀ (w : WorktreeManagerSt) (payload : String) (ext2 : Ext),
      (w.listWorktrees (.ok payload :: ext2)).2 = .ok w.gitWorktrees := by
  have key : m.spawnInstance cfg now (.error cause :: rest)
      = ({ m with worktree :=
            ((mkdirStep m.worktree (spawnWorktreePath cfg now)).removeWorktree
              (spawnWorktreePath cfg now) rest).1 },
         ((mkdirStep m.worktree (spawnWorktreePath cfg now)).removeWorktree
              (spawnWorktreePath cfg now) rest).2.1,
         .error ("Failed to spawn instance: " ++ ("Failed to create worktree: " ++ cause))) := by
    simp [InstanceManagerSt.spawnInstance, WorktreeManagerSt.createWorktree, takeExt,
      mkdirStep, spawnWorktreePath]
  have hrw := removeWorktree_not_registered (mkdirStep m.worktree (spawnWorktreePath cfg now))
    (spawnWorktreePath cfg now) rest hp
  have hd : spawnWorktreePath cfg now
      ∉ ((mkdirStep m.worktree (spawnWorktreePath cfg now)).removeWorktree
          (spawnWorktreePath cfg now) rest).1.dirs := by
    rw [hrw.1]
    intro hmem
    have := (List.mem_filter.mp hmem).2
    simp at this
  have hg : spawnWorktreePath cfg now
      ∉ ((mkdirStep m.worktree (spawnWorktreePath cfg now)).removeWorktree
          (spawnWorktreePath cfg now) rest).1.gitWorktrees :=
    fun hmem => hp (hrw.2 _ hmem)
  refine ⟨by rw [key], by rw [key], by rw [key], ?_, ?_, ?_⟩
  · rw [key]; exact hd
  · rw [key]; exact hg
  · intro w payload ext2
    simp [WorktreeManagerSt.listWorktrees, takeExt]

/-- A config without system prompt (the prompt is optional in
`InstanceConfig`). -/
def imCfg : InstanceConfig :=
  { name := "Dev", type := "developer", branch := none, systemPrompt := none }

/-- A managed instance `claude-1` with restart count 0. -/
def imInst1 : ManagedInstance :=
  { id := "claude-1", name := "Dev", status := .ready, workingDirectory := "wd",
    config := imCfg, worktreePath := "wd", restartCount := 0 }

/-- An instance manager supervising `imInst1` with `maxRestartAttempts = 2`. -/
def imWorld : InstanceManagerSt :=
  { claude := { instances := [{ id := "claude-1", name := "Dev", status := .ready,
                                workingDirectory := "wd" }],
                instanceCounter := 1 },
    worktree := { dirs := ["wd"], gitWorktrees := ["wd"] },
    instances := [imInst1], maxRestartAttempts := 2 }

/-- Witness for C8: a failing `git worktree add` on the concrete supervisor
world. -/
theorem spawnInstance_worktree_failure_witness :
    spawnWorktreePath imCfg 7 ∉ imWorld.worktree.gitWorktrees ∧
    (imWorld.spawnInstance imCfg 7 [.error "git boom"]).2.2
      = .error ("Failed to spawn instance: " ++ ("Failed to create worktree: " ++ "git boom")) ∧
    (imWorld.spawnInstance imCfg 7 [.error "git boom"]).1.instances = imWorld.instances ∧
    spawnWorktreePath imCfg 7
      ∉ (imWorld.spawnInstance imCfg 7 [.error "git boom"]).1.worktree.gitWorktrees := by
  have hp : spawnWorktreePath imCfg 7 ∉ imWorld.worktree.gitWorktrees := by decide
  have H := spawnInstance_worktree_failure imWorld imCfg 7 "git boom" [] hp
  exact ⟨hp, H.1, H.2.1, H.2.2.2.2.1⟩

/-! ## C5: bounded automatic restarts -/

/-- Three consecutive errors against `maxRestartAttempts = 2`: the first two
produce replacement instances with restart counts 1 and 2, the third only
the terminal signal, with the supervisor state untouched. -/
def c5Check : Bool :=
  let r1 := imWorld.handleInstanceError imInst1 []
  match r1.2.2, r1.1.getInstance "claude-2" with
  | [.healthCheckFailed i1, .restarted m2], some m2reg =>
    i1.id == "claude-1" && m2.id == "claude-2" && m2.restartCount == 1 &&
    m2reg == m2 && decide (r1.1.getInstance "claude-1" = none) &&
    (let r2 := r1.1.handleInstanceError m2 []
     match r2.2.2, r2.1.getInstance "claude-3" with
     | [.healthCheckFailed i2, .restarted m3], some m3reg =>
       i2.id == "claude-2" && m3.id == "claude-3" && m3.restartCount == 2 &&
       m3reg == m3 && decide (r2.1.getInstance "claude-2" = none) &&
       (let r3 := r2.1.handleInstanceError m3 []
        match r3.2.2 with
        | [.healthCheckFailed i3, .maxRestartsExceeded mx] =>
          i3.id == "claude-3" && mx.id == "claude-3" && decide (r3.1 = r2.1)
        | _ => false)
     | _, _ => false)
  | _, _ => false

/-- C5.  An instance error at or above the restart cap produces only the
health-check notification and the terminal max-restarts-exceeded signal,
never another restart and no state change; and on the concrete world with
`maxRestartAttempts = 2`, three consecutive errors produce exactly two
automatic restarts whose replacement instances carry restart counts 1 and 2,
followed by the terminal signal. -/
theorem handleInstanceError_restart_cap :
    (∀ (m : InstanceManagerSt) (inst : ManagedInstance) (ext : Ext),
        m.maxRestartAttempts ≤ inst.restartCount →
        m.handleInstanceError inst ext
          = (m, ext, [.healthCheckFailed inst, .maxRestartsExceeded inst]))
  ∧ c5Check = true := by
  constructor
  · intro m inst ext hge
    have hnl : ¬ inst.restartCount < m.maxRestartAttempts := Nat.not_lt.mpr hge
    simp [InstanceManagerSt.handleInstanceError, hnl]
  · decide

/-- Witness for C5: the third error of the concrete run hits the cap and is
answered by the terminal signal alone. -/
theorem handleInstanceError_restart_cap_witness :
    ((imWorld.handleInstanceError imInst1 []).1.handleInstanceError
        { imInst1 with id := "claude-2", restartCount := 1 } []).1.handleInstanceError
        { imInst1 with id := "claude-3", restartCount := 2 } []
      = (((imWorld.handleInstanceError imInst1 []).1.handleInstanceError
            { imInst1 with id := "claude-2", restartCount := 1 } []).1, [],
         [.healthCheckFailed { imInst1 with id := "claude-3", restartCount := 2 },
          .maxRestartsExceeded { imInst1 with id := "claude-3", restartCount := 2 }]) := by
  exact handleInstanceError_restart_cap.1 _ _ [] (by decide)

/-! ## C9: the restarted-event rebinding is dead code -/

/-- A persona environment whose single runtime owns instance `claude-1` of
the concrete supervisor world (restart cap lifted to 3 so a restart is
allowed). -/
def c9Env : EnvSt :=
  { instMgr := { imWorld with maxRestartAttempts := 3 },
    store := [mgrDef], clock := 5, ext := [],
    activePersonas := [
      { personaId := "manager", instanceId := "claude-1", definition := mgrDef,
        state := { personaId := "manager", instanceId := "claude-1", status := .active,
                   currentTask := none,
                   memory := { shortTerm := [], workingMemory := [], persistentFacts := [] },
                   statistics := { tasksCompleted := 3, tasksFailed := 0, totalActiveTime := 0,
                                   lastError := none } },
        inst := imInst1 }] }

/-- C9 (evaluation at the failing input).  Restarting `claude-1` replaces it
by `claude-2` and emits `instanceRestarted` with the replacement, but the
environment's handler looks the owning runtime up by the NEW instance id, so
the lookup finds nothing and the runtime keeps the stale binding to
`claude-1` (identity and statistics untouched, but no rebinding either). -/
theorem restarted_rebinding_is_dead_code :
    ((c9Env.restartInstanceWithEvents "claude-1").2).toOption.map (fun i => i.id) = some "claude-2"
  ∧ (c9Env.restartInstanceWithEvents "claude-1").1.activePersonas.map
      (fun r => (r.personaId, r.instanceId, r.state.statistics.tasksCompleted))
      = [("manager", "claude-1", 3)]
  ∧ (c9Env.restartInstanceWithEvents "claude-1").1.findRuntimeByInstanceId "claude-2" = none
  ∧ (c9Env.restartInstanceWithEvents "claude-1").1.instMgr.getInstance "claude-1" = none := by
  refine ⟨?_, ?_, ?_, ?_⟩ <;> decide

/-! ## C2: singleton roles -/

/-- Fresh persona environment over the default store entries used here. -/
def c2Env0 : EnvSt := (initSched [devDef, mgrDef] 10 [("developer", 2)]).env

/-- Environment after the first successful `spawnPersona "manager"`. -/
def c2Env1 : EnvSt := (c2Env0.spawnPersona "manager" none).1

/-- Concrete singleton life cycle: spawn succeeds, a second spawn fails with
the singleton error leaving the state untouched, termination removes the
runtime, and a subsequent spawn succeeds again. -/
def c2Check : Bool :=
  let a := c2Env0.spawnPersona "manager" none
  match a.2 with
  | .ok r1 =>
    r1.personaId == "manager" && (a.1.getActivePersona "manager").isSome &&
    (let b := a.1.spawnPersona "manager" none
     match b.2 with
     | .error msg =>
       msg == "Singleton persona manager is already running" && decide (b.1 = a.1) &&
       (let c := a.1.terminatePersona "manager"
        match c.2 with
        | .ok _ =>
          (c.1.getActivePersona "manager").isNone &&
          (let d := c.1.spawnPersona "manager" none
           match d.2 with
           | .ok r2 => r2.personaId == "manager" && (d.1.getActivePersona "manager").isSome
           | .error _ => false)
        | .error _ => false)
     | .ok _ => false)
  | .error _ => false

/-- C2.  While any active runtime carries a singleton role's definition id, a
further `spawnPersona` for that role id fails with the singleton
constraint-violation error and changes nothing (so no second runtime is
registered); and on the concrete world, after `terminatePersona` removes the
first runtime a new spawn for the role succeeds. -/
theorem spawnPersona_singleton_spec :
    (∀ (s : EnvSt) (roleId : String) (td : Option String) (d : PersonaDefinition)
        (r : PersonaRuntime),
        s.getPersonaDef roleId = some d → d.singleton = true →
        r ∈ s.activePersonas → r.definition.id = roleId →
        s.spawnPersona roleId td
          = (s, .error ("Singleton persona " ++ roleId ++ " is already running")))
  ∧ c2Check = true := by
  constructor
  · intro s roleId td d r hdef hsing hmem hid
    have hfind : (s.activePersonas.find? (fun x => x.definition.id == roleId)).isSome := by
      rw [List.find?_isSome]
      exact ⟨r, hmem, by simp [hid]⟩
    simp [EnvSt.spawnPersona, hdef, hsing, hfind]
  · decide

/-- The manager runtime registered by the first concrete spawn. -/
def c2Rt : PersonaRuntime :=
  { personaId := "manager", instanceId := "claude-1", definition := mgrDef,
    state := { personaId := "manager", instanceId := "claude-1", status := .active,
               currentTask := none,
               memory := { shortTerm := [], workingMemory := [], persistentFacts := [] },
               statistics := { tasksCompleted := 0, tasksFailed := 0, totalActiveTime := 0,
                               lastError := none } },
    inst := { id := "claude-1", name := "Team Manager (manager)", status := .ready,
              workingDirectory := worktreesPath ++ "/manager-0",
              config := { name := "Team Manager (manager)", type := "manager",
                          branch := none, systemPrompt := some (buildSystemPrompt mgrDef) },
              worktreePath := worktreesPath ++ "/manager-0", restartCount := 0 } }

/-- Witness for C2: the generic singleton refusal applied to the concrete
post-spawn environment. -/
theorem spawnPersona_singleton_spec_witness :
    c2Env1.spawnPersona "manager" none
      = (c2Env1, .error ("Singleton persona " ++ "manager" ++ " is already running")) := by
  exact spawnPersona_singleton_spec.1 c2Env1 "manager" none mgrDef c2Rt
    (by decide) rfl (by decide) rfl

/-! ## C10: spawn is not atomic across the initialization send -/

/-- Environment whose external script lets the worktree creation and the
system-prompt application succeed but fails the initialization send. -/
def c10Env : EnvSt := { c2Env0 with ext := [.ok "", .ok "", .error "connection lost"] }

/-- C10.  With the initialization send failing, `spawnPersona` rejects with
that failure, yet the runtime is already registered (status `error`, last
error recorded) because registration precedes the initialization message and
no rollback happens; a retried spawn for the singleton role is then refused
with the singleton error even though the first spawn reported failure, and
the state does not change further. -/
theorem spawnPersona_init_send_failure :
    (c10Env.spawnPersona "manager" none).2 = .error "connection lost"
  ∧ ((c10Env.spawnPersona "manager" none).1.getActivePersona "manager").map
      (fun r => (r.state.status, r.state.statistics.lastError))
      = some (PersonaStatus.error, some "connection lost")
  ∧ ((c10Env.spawnPersona "manager" none).1.instMgr.getInstance "claude-1").isSome = true
  ∧ ((c10Env.spawnPersona "manager" none).1.spawnPersona "manager" none).2
      = .error "Singleton persona manager is already running"
  ∧ ((c10Env.spawnPersona "manager" none).1.spawnPersona "manager" none).1
      = (c10Env.spawnPersona "manager" none).1 := by
  refine ⟨?_, ?_, ?_, ?_, ?_⟩ <;> decide

/-! ## C4: priority order of the assignment pass -/

/-- The comparator order of `scheduleNextTasks`. -/
def taskLE (a b : ScheduledTask) : Prop :=
  priorityOrder a.priority ≤ priorityOrder b.priority

lemma insertByPriority_perm (x : ScheduledTask) (l : List ScheduledTask) :
    List.Perm (insertByPriority x l) (x :: l) := by
  induction l with
  | nil => simp [insertByPriority]
  | cons y ys ih =>
    unfold insertByPriority
    split
    · exact ((ih.cons y).trans (List.Perm.swap x y ys))
    · exact List.Perm.refl _

lemma jsSortTasks_perm_aux (l acc : List ScheduledTask) :
    List.Perm (l.foldl (fun a x => insertByPriority x a) acc) (acc ++ l) := by
  induction l generalizing acc with
  | nil => simp
  | cons x xs ih =>
    have h1 : List.Perm (xs.foldl (fun a y => insertByPriority y a) (insertByPriority x acc))
        (insertByPriority x acc ++ xs) := ih _
    have h2 : List.Perm (insertByPriority x acc ++ xs) ((x :: acc) ++ xs) :=
      (insertByPriority_perm x acc).append_right xs
    have h3 : List.Perm ((x :: acc) ++ xs) (acc ++ x :: xs) := List.perm_middle.symm
    exact (h1.trans h2).trans h3

lemma jsSortTasks_perm (l : List ScheduledTask) : List.Perm (jsSortTasks l) l := by
  simpa using jsSortTasks_perm_aux l []

lemma insertByPriority_pairwise (x : ScheduledTask) (l : List ScheduledTask)
    (h : l.Pairwise taskLE) : (insertByPriority x l).Pairwise taskLE := by
  induction l with
  | nil => simp [insertByPriority, taskLE]
  | cons y ys ih =>
    rw [List.pairwise_cons] at h
    unfold insertByPriority
    split
    · rename_i hyx
      refine List.Pairwise.cons ?_ (ih h.2)
      intro b hb
      rcases List.mem_cons.mp (((insertByPriority_perm x ys).mem_iff).mp hb) with hbx | hbys
      · subst hbx; exact hyx
      · exact h.1 b hbys
    · rename_i hyx
      have hxy : taskLE x y := le_of_lt (Nat.lt_of_not_le hyx)
      refine List.Pairwise.cons ?_ (List.Pairwise.cons h.1 h.2)
      intro b hb
      rcases List.mem_cons.mp hb with hby | hbys
      · subst hby; exact hxy
      · exact le_trans hxy (h.1 b hbys)

lemma jsSortTasks_pairwise (l : List ScheduledTask) :
    (jsSortTasks l).Pairwise taskLE := by
  have aux : ∀ (l acc : List ScheduledTask), acc.Pairwise taskLE →
      (l.foldl (fun a x => insertByPriority x a) acc).Pairwise taskLE := by
    intro l
    induction l with
    | nil => intro acc h; exact h
    | cons x xs ih => intro acc h; exact ih _ (insertByPriority_pairwise x acc h)
  exact aux l [] (by simp)

lemma priorityOrder_inj {a b : Priority} (h : priorityOrder a = priorityOrder b) : a = b := by
  cases a <;> cases b <;> first | rfl | (exfalso; simp [priorityOrder] at h)

lemma insertByPriority_filter (x : ScheduledTask) (l : List ScheduledTask) (pr : Priority)
    (h : l.Pairwise taskLE) :
    (insertByPriority x l).filter (fun t => t.priority == pr)
      = if x.priority == pr then
          l.filter (fun t => t.priority == pr) ++ [x]
        else l.filter (fun t => t.priority == pr) := by
  induction l with
  | nil => by_cases hx : (x.priority == pr) = true <;> simp [insertByPriority, hx]
  | cons y ys ih =>
    rw [List.pairwise_cons] at h
    unfold insertByPriority
    split
    · rename_i hyx
      by_cases hy : (y.priority == pr) = true <;>
        by_cases hx : (x.priority == pr) = true <;>
          simp [List.filter_cons, hy, hx, ih h.2]
    · rename_i hyx
      have hxy : priorityOrder x.priority < priorityOrder y.priority := Nat.lt_of_not_le hyx
      by_cases hx : (x.priority == pr) = true
      · have hpr : x.priority = pr := by simpa using hx
        have hnone : ∀ z ∈ y :: ys, (z.priority == pr) = false := by
          intro z hz
          have hge : priorityOrder y.priority ≤ priorityOrder z.priority := by
            rcases List.mem_cons.mp hz with hzy | hzys
            · subst hzy; exact le_refl _
            · exact h.1 z hzys
          have : priorityOrder x.priority < priorityOrder z.priority := lt_of_lt_of_le hxy hge
          by_contra hc
          have hzpr : z.priority = pr := by simpa using Bool.of_not_eq_false hc
          rw [hzpr, ← hpr] at this
          exact lt_irrefl _ this
        have hfilter_nil : (y :: ys).filter (fun t => t.priority == pr) = [] := by
          apply List.filter_eq_nil_iff.mpr
          intro z hz
          simp [hnone z hz]
        simp [List.filter_cons, hx, hfilter_nil, hnone y (by simp)]
      · have hy : (y.priority == pr) = true ∨ (y.priority == pr) = false := by
          cases (y.priority == pr) <;> simp
        simp [List.filter_cons, hx]

lemma jsSortTasks_filter (l : List ScheduledTask) (pr : Priority) :
    (jsSortTasks l).filter (fun t => t.priority == pr)
      = l.filter (fun t => t.priority == pr) := by
  have aux : ∀ (l acc : List ScheduledTask), acc.Pairwise taskLE →
      (l.foldl (fun a x => insertByPriority x a) acc).filter (fun t => t.priority == pr)
        = acc.filter (fun t => t.priority == pr) ++ l.filter (fun t => t.priority == pr) := by
    intro l
    induction l with
    | nil => intro acc h; simp
    | cons x xs ih =>
      intro acc h
      have step := insertByPriority_filter x acc pr h
      calc ((x :: xs).foldl (fun a y => insertByPriority y a) acc).filter
              (fun t => t.priority == pr)
          = (xs.foldl (fun a y => insertByPriority y a)
              (insertByPriority x acc)).filter (fun t => t.priority == pr) := rfl
        _ = (insertByPriority x acc).filter (fun t => t.priority == pr)
              ++ xs.filter (fun t => t.priority == pr) :=
            ih _ (insertByPriority_pairwise x acc h)
        _ = acc.filter (fun t => t.priority == pr)
              ++ (x :: xs).filter (fun t => t.priority == pr) := by
            rw [step]
            by_cases hx : (x.priority == pr) = true <;>
              simp [List.filter_cons, hx]
  simpa using aux l []

/-- Scheduler with three tasks A (low), B (high), C (medium) inserted in that
order, per-type cap 5. -/
def c4Start : SchedSt :=
  (((initSched [devDef] 10 [("developer", 5)]).insertTask
      (devSpec .low "A")).1.insertTask (devSpec .high "B")).1.insertTask (devSpec .medium "C")
    |>.1

/-- C4.  The assignment pass attempts the pending snapshot in the stable
order produced by the priority sort: the attempt order is sorted by the
priority comparator and, for each fixed priority, preserves the snapshot
(creation) order; on the concrete scenario A(low), B(high), C(medium) with
per-type cap at least 3, one pass hands off B, then C, then A. -/
theorem pass_priority_order :
    (c4Start.scheduleNextTasks.2 = [2, 3, 1])
  ∧ (c4Start.scheduleNextTasks.1.tasks.map (fun t => (t.id, t.status))
      = [(1, .running), (2, .running), (3, .running)])
  ∧ (∀ s : SchedSt, ¬ s.getPendingTasks.length = 0 →
      ¬ s.maxConcurrentPersonas ≤ s.env.activePersonas.length →
      s.scheduleNextTasks = s.passFold (jsSortTasks s.getPendingTasks))
  ∧ (∀ l : List ScheduledTask, (jsSortTasks l).Pairwise taskLE)
  ∧ (∀ (l : List ScheduledTask) (pr : Priority),
      (jsSortTasks l).filter (fun t => t.priority == pr)
        = l.filter (fun t => t.priority == pr))
  ∧ (∀ l : List ScheduledTask, List.Perm (jsSortTasks l) l) := by
  refine ⟨by decide, by decide, ?_, jsSortTasks_pairwise, jsSortTasks_filter, jsSortTasks_perm⟩
  intro s h1 h2
  simp [SchedSt.scheduleNextTasks, h1, h2]

/-- Witness for C4: the pass-shape conjunct applied to the concrete
three-task scheduler. -/
theorem pass_priority_order_witness :
    c4Start.scheduleNextTasks = c4Start.passFold (jsSortTasks c4Start.getPendingTasks) := by
  exact pass_priority_order.2.2.1 c4Start (by decide) (by decide)

/-! ## Shape of the task table under scheduler operations -/

/-- The pass and its helpers never add, remove, re-identify or re-type
tasks, and never touch the counter or the resource constraints. -/
def tasksShapeEq (s s' : SchedSt) : Prop :=
  s'.tasks.map (fun t => (t.id, t.personaType)) = s.tasks.map (fun t => (t.id, t.personaType)) ∧
  s'.taskCounter = s.taskCounter ∧
  s'.maxConcurrentPersonas = s.maxConcurrentPersonas ∧
  s'.maxPersonasPerType = s.maxPersonasPerType

lemma tasksShapeEq_refl (s : SchedSt) : tasksShapeEq s s := ⟨rfl, rfl, rfl, rfl⟩

lemma tasksShapeEq_trans {a b c : SchedSt} (h1 : tasksShapeEq a b) (h2 : tasksShapeEq b c) :
    tasksShapeEq a c :=
  ⟨h2.1.trans h1.1, h2.2.1.trans h1.2.1, h2.2.2.1.trans h1.2.2.1, h2.2.2.2.trans h1.2.2.2⟩

lemma tasksShapeEq_withEnv (s : SchedSt) (e : EnvSt) : tasksShapeEq s (s.withEnv e) :=
  ⟨rfl, rfl, rfl, rfl⟩

lemma tasksShapeEq_setMonitors (s : SchedSt) (ms : List (Nat × String)) :
    tasksShapeEq s { s with monitors := ms } := ⟨rfl, rfl, rfl, rfl⟩

lemma tasksShapeEq_modifyTask (s : SchedSt) (tid : Nat) (f : ScheduledTask → ScheduledTask)
    (hf : ∀ u, (f u).id = u.id ∧ (f u).personaType = u.personaType) :
    tasksShapeEq s (s.modifyTask tid f) := by
  refine ⟨?_, rfl, rfl, rfl⟩
  show (s.tasks.map _).map _ = _
  rw [List.map_map]
  apply List.map_congr_left
  intro a _
  by_cases h : a.id = tid <;> simp [h, (hf a).1, (hf a).2]

lemma handoff_tasksShape (s : SchedSt) (t : ScheduledTask) (r : PersonaRuntime) :
    tasksShapeEq s (s.handoff t r).1 := by
  simp only [SchedSt.handoff]
  split <;>
  · refine ⟨?_, rfl, rfl, rfl⟩
    simp only [SchedSt.modifyTask, SchedSt.withEnv, List.map_map]
    apply List.map_congr_left
    intro a _
    by_cases h : a.id = t.id <;> simp [h]

lemma assign_tasksShape (s : SchedSt) (t : ScheduledTask) :
    tasksShapeEq s (s.assignTaskToPersona t).1 := by
  simp only [SchedSt.assignTaskToPersona]
  split
  · exact handoff_tasksShape s t _
  · split
    · exact handoff_tasksShape _ t _
    · refine ⟨?_, rfl, rfl, rfl⟩
      simp only [SchedSt.modifyTask, SchedSt.withEnv, List.map_map]
      apply List.map_congr_left
      intro a _
      by_cases h : a.id = t.id <;> simp [h]

lemma passFold_tasksShape (s : SchedSt) (l : List ScheduledTask) :
    tasksShapeEq s (s.passFold l).1 := by
  induction l generalizing s with
  | nil => exact tasksShapeEq_refl s
  | cons t rest ih =>
    simp only [SchedSt.passFold]
    split
    · exact tasksShapeEq_trans (assign_tasksShape s t) (ih _)
    · exact ih s

lemma pass_tasksShape (s : SchedSt) : tasksShapeEq s s.scheduleNextTasks.1 := by
  simp only [SchedSt.scheduleNextTasks]
  split
  · exact tasksShapeEq_refl s
  · split
    · exact tasksShapeEq_refl s
    · exact passFold_tasksShape s _

lemma cancel_tasksShape (s : SchedSt) (tid : Nat) : tasksShapeEq s (s.cancelTask tid).1 := by
  unfold SchedSt.cancelTask
  split
  · exact tasksShapeEq_refl s
  · split
    · exact tasksShapeEq_refl s
    · refine tasksShapeEq_trans ?_ (tasksShapeEq_modifyTask _ tid _ (fun u => ⟨rfl, rfl⟩))
      split
      · split
        · split
          · exact tasksShapeEq_withEnv s _
          · exact tasksShapeEq_refl s
        · exact tasksShapeEq_refl s
      · exact tasksShapeEq_refl s

lemma monitor_tasksShape (s : SchedSt) (tid : Nat) : tasksShapeEq s (s.monitorTick tid) := by
  unfold SchedSt.monitorTick
  split
  · exact tasksShapeEq_refl s
  · split
    · exact tasksShapeEq_refl s
    · split
      · refine ⟨?_, rfl, rfl, rfl⟩
        simp only [SchedSt.modifyTask, SchedSt.withEnv, List.map_map]
        apply List.map_congr_left
        intro a _
        by_cases h : a.id = tid <;> simp [h]
      · split
        · refine ⟨?_, rfl, rfl, rfl⟩
          simp only [SchedSt.modifyTask, SchedSt.withEnv, List.map_map]
          apply List.map_congr_left
          intro a _
          by_cases h : a.id = tid <;> simp [h]
        · exact tasksShapeEq_refl s

lemma tasksShapeEq_map_id {s s' : SchedSt} (h : tasksShapeEq s s') :
    s'.tasks.map (fun t => t.id) = s.tasks.map (fun t => t.id) := by
  have := congrArg (List.map Prod.fst) h.1
  simpa [List.map_map, Function.comp] using this

/-! ## C7: scheduleTask identity freshness and immediate status -/

lemma find?_map_replace (l : List ScheduledTask) (a : ScheduledTask)
    (hany : (l.any fun x => x.id == a.id) = true) :
    (l.map (fun x => if x.id == a.id then a else x)).find? (fun u => u.id == a.id) = some a := by
  induction l with
  | nil => simp at hany
  | cons y ys ih =>
    by_cases hy : (y.id == a.id) = true
    · have hya : y.id = a.id := by simpa using hy
      simp [List.find?_cons, hya]
    · have hya : ¬ y.id = a.id := by simpa using hy
      have hys : (ys.any fun x => x.id == a.id) = true := by
        rcases List.any_eq_true.mp hany with ⟨x, hx, hpx⟩
        rcases List.mem_cons.mp hx with hxy | hxys
        · subst hxy; exact absurd hpx hy
        · exact List.any_eq_true.mpr ⟨x, hxys, hpx⟩
      simpa [List.find?_cons, hya] using ih hys

lemma find?_setByKey_id (l : List ScheduledTask) (a : ScheduledTask) :
    (setByKey (fun u => u.id) l a).find? (fun u => u.id == a.id) = some a := by
  unfold setByKey
  split
  next hany => exact find?_map_replace l a hany
  next hany =>
    rw [List.find?_append]
    have hl : l.find? (fun u => u.id == a.id) = none := by
      rw [List.find?_eq_none]
      intro x hx hpx
      exact hany (List.any_eq_true.mpr ⟨x, hx, hpx⟩)
    simp [hl]

lemma setByKey_id_superset (l : List ScheduledTask) (a : ScheduledTask) :
    ∀ i ∈ l.map (fun t => t.id), i ∈ (setByKey (fun u => u.id) l a).map (fun t => t.id) := by
  intro i hi
  rcases List.mem_map.mp hi with ⟨u, hu, hid⟩
  unfold setByKey
  split
  · rw [List.map_map]
    refine List.mem_map.mpr ⟨u, hu, ?_⟩
    by_cases h1 : (u.id == a.id) = true
    · have h2 : u.id = a.id := by simpa using h1
      simp [Function.comp, h2, ← hid]
    · have h2 : ¬ u.id = a.id := by simpa using h1
      simpa [Function.comp, h2] using hid
  · exact List.mem_map.mpr ⟨u, List.mem_append_left _ hu, hid⟩

/-- The task inserted by `insertTask`. -/
def mkPendingTask (s : SchedSt) (spec : TaskSpec) : ScheduledTask :=
  { id := s.taskCounter + 1, personaType := spec.personaType, personaId := spec.personaId,
    priority := spec.priority, description := spec.description,
    dependencies := spec.dependencies, status := .pending, result := none, error := none }

lemma insertTask_eq (s : SchedSt) (spec : TaskSpec) :
    s.insertTask spec
      = ({ s with taskCounter := s.taskCounter + 1,
                  tasks := setByKey (fun u => u.id) s.tasks (mkPendingTask s spec) },
         s.taskCounter + 1) := rfl

lemma insertTask_findTask (s : SchedSt) (spec : TaskSpec) :
    (s.insertTask spec).1.findTask (s.insertTask spec).2 = some (mkPendingTask s spec) := by
  exact find?_setByKey_id s.tasks (mkPendingTask s spec)

lemma scheduleTask_eq (s : SchedSt) (spec : TaskSpec) :
    s.scheduleTask spec
      = ((s.insertTask spec).1.scheduleNextTasks.1, (s.insertTask spec).2,
         (s.insertTask spec).1.scheduleNextTasks.2) := rfl

/-- The ids-bounded-by-counter invariant used for freshness. -/
def IdsBounded (s : SchedSt) : Prop := ∀ t ∈ s.tasks, t.id ≤ s.taskCounter

lemma idsBounded_of_shape {s s' : SchedSt} (h : tasksShapeEq s s') (hb : IdsBounded s) :
    IdsBounded s' := by
  intro t ht
  have hmem : t.id ∈ s'.tasks.map (fun u => u.id) := List.mem_map_of_mem _ ht
  rw [tasksShapeEq_map_id h] at hmem
  rcases List.mem_map.mp hmem with ⟨u, hu, hid⟩
  rw [h.2.1, ← hid]
  exact hb u hu

lemma idsBounded_insert (s : SchedSt) (spec : TaskSpec) (hb : IdsBounded s) :
    IdsBounded (s.insertTask spec).1 := by
  intro t ht
  have ht' : t ∈ setByKey (fun u => u.id) s.tasks (mkPendingTask s spec) := ht
  show t.id ≤ s.taskCounter + 1
  unfold setByKey at ht'
  split at ht'
  · rcases List.mem_map.mp ht' with ⟨u, hu, heq⟩
    subst heq
    split
    · exact Nat.le_refl _
    · exact le_trans (hb u hu) (Nat.le_succ _)
  · rcases List.mem_append.mp ht' with hu | hu
    · exact le_trans (hb t hu) (Nat.le_succ _)
    · simp at hu
      subst hu
      exact Nat.le_refl _

lemma step_ids_monotone {P : TaskSpec → Prop} {s s' : SchedSt} (h : SStep P s s') :
    ∀ i ∈ s.tasks.map (fun t => t.id), i ∈ s'.tasks.map (fun t => t.id) := by
  intro i hi
  cases h with
  | schedule spec hP =>
    have h1 : i ∈ ((s.insertTask spec).1).tasks.map (fun t => t.id) :=
      setByKey_id_superset s.tasks (mkPendingTask s spec) i hi
    have h2 := tasksShapeEq_map_id (pass_tasksShape (s.insertTask spec).1)
    show i ∈ ((s.insertTask spec).1.scheduleNextTasks.1).tasks.map (fun t => t.id)
    rw [h2]
    exact h1
  | pass => rw [tasksShapeEq_map_id (pass_tasksShape s)]; exact hi
  | cancel tid => rw [tasksShapeEq_map_id (cancel_tasksShape s tid)]; exact hi
  | monitor tid => rw [tasksShapeEq_map_id (monitor_tasksShape s tid)]; exact hi
  | terminate pid => exact hi
  | sendMsg pid msg => exact hi
  | instErr iid emsg => exact hi
  | extPush e => exact hi

lemma step_idsBounded {P : TaskSpec → Prop} {s s' : SchedSt} (h : SStep P s s')
    (hb : IdsBounded s) : IdsBounded s' := by
  cases h with
  | schedule spec hP =>
    exact idsBounded_of_shape (pass_tasksShape (s.insertTask spec).1)
      (idsBounded_insert s spec hb)
  | pass => exact idsBounded_of_shape (pass_tasksShape s) hb
  | cancel tid => exact idsBounded_of_shape (cancel_tasksShape s tid) hb
  | monitor tid => exact idsBounded_of_shape (monitor_tasksShape s tid) hb
  | terminate pid => exact hb
  | sendMsg pid msg => exact hb
  | instErr iid emsg => exact hb
  | extPush e => exact hb

/-- Scheduler used by the C7 counterexample. -/
def c7Sched : SchedSt := initSched [devDef] 10 [("developer", 5)]

/-- Counterexample to C7 as stated: on a fresh scheduler with a spawnable
task, `getTask` immediately after `scheduleTask` returns yields status
`running`, not `pending`, because `scheduleTask` runs an assignment pass
before returning. -/
theorem scheduleTask_immediately_pending_false :
    ((c7Sched.scheduleTask (devSpec .high "fix")).1.findTask
        (c7Sched.scheduleTask (devSpec .high "fix")).2.1).map (fun t => t.status)
      = some .running
  ∧ ((c7Sched.scheduleTask (devSpec .high "fix")).1.findTask
        (c7Sched.scheduleTask (devSpec .high "fix")).2.1).map (fun t => t.status)
      ≠ some .pending := by
  constructor
  · decide
  · decide

/-- C7 (amended).  `scheduleTask` returns a fresh identity: in every
reachable scheduler state the returned id differs from every id already in
the queue, ids are never removed by any transition, and the queue insertion
is with status `pending`; when the immediate pass cannot run (the global
persona cap is reached) the task is still `pending` when `scheduleTask`
returns. -/
theorem scheduleTask_fresh_id :
    (∀ (s : SchedSt) (spec : TaskSpec), IdsBounded s →
        (s.scheduleTask spec).2.1 ∉ s.tasks.map (fun t => t.id))
  ∧ (∀ (store : List PersonaDefinition) (mc : Nat) (mpt : List (String × Nat)) (s : SchedSt),
        Reachable store mc mpt s → IdsBounded s)
  ∧ (∀ (P : TaskSpec → Prop) (s s' : SchedSt), SStep P s s' →
        ∀ i ∈ s.tasks.map (fun t => t.id), i ∈ s'.tasks.map (fun t => t.id))
  ∧ (∀ (s : SchedSt) (spec : TaskSpec),
        (s.insertTask spec).1.findTask (s.insertTask spec).2 = some (mkPendingTask s spec)
        ∧ (mkPendingTask s spec).status = .pending)
  ∧ (∀ (s : SchedSt) (spec : TaskSpec),
        s.maxConcurrentPersonas ≤ s.env.activePersonas.length →
        (s.scheduleTask spec).1.findTask (s.scheduleTask spec).2.1
          = some (mkPendingTask s spec)) := by
  refine ⟨?_, ?_, ?_, ?_, ?_⟩
  · intro s spec hb hmem
    have hret : (s.scheduleTask spec).2.1 = s.taskCounter + 1 := rfl
    rw [hret] at hmem
    rcases List.mem_map.mp hmem with ⟨u, hu, hid⟩
    have := hb u hu
    omega
  · intro store mc mpt s h
    induction h with
    | refl => intro t ht; simp [initSched] at ht
    | tail hab hbc ih => exact step_idsBounded hbc ih
  · intro P s s' h
    exact step_ids_monotone h
  · intro s spec
    exact ⟨insertTask_findTask s spec, rfl⟩
  · intro s spec hcap
    have hpass : (s.insertTask spec).1.scheduleNextTasks = ((s.insertTask spec).1, []) := by
      simp only [SchedSt.scheduleNextTasks]
      split
      · rfl
      · split
        · rfl
        · rename_i h2
          exact absurd hcap h2
    show ((s.insertTask spec).1.scheduleNextTasks.1).findTask (s.insertTask spec).2 = _
    rw [hpass]
    exact insertTask_findTask s spec

/-- Witness for C7: the freshness and blocked-pass parts applied to a
concrete scheduler whose global cap is zero. -/
theorem scheduleTask_fresh_id_witness :
    ((initSched [devDef] 0 []).scheduleTask (devSpec .high "fix")).2.1
      ∉ (initSched [devDef] 0 []).tasks.map (fun t => t.id)
  ∧ ((initSched [devDef] 0 []).scheduleTask (devSpec .high "fix")).1.findTask
        ((initSched [devDef] 0 []).scheduleTask (devSpec .high "fix")).2.1
      = some (mkPendingTask (initSched [devDef] 0 []) (devSpec .high "fix")) := by
  constructor
  · exact scheduleTask_fresh_id.1 _ _ (by intro t ht; simp [initSched] at ht)
  · exact scheduleTask_fresh_id.2.2.2.2 _ _ (by decide)

/-! ## C1: dependency gating invariant -/

/-- Task ids are pairwise distinct. -/
def NodupIds (s : SchedSt) : Prop := (s.tasks.map (fun t => t.id)).Nodup

/-- Live completion monitors watch tasks that are assigned, running, or
failed (by cancellation), never completed or still pending; at most one
monitor per task. -/
def MonOk (s : SchedSt) : Prop :=
  (∀ m ∈ s.monitors, ∃ u, s.findTask m.1 = some u ∧
      (u.status = .assigned ∨ u.status = .running ∨ u.status = .failed))
  ∧ (s.monitors.map Prod.fst).Nodup

/-- The dependency-gating property of C1: a task that is `assigned` or
`running` has every dependency id resolving to a `completed` task. -/
def DepInv (s : SchedSt) : Prop :=
  ∀ t ∈ s.tasks, (t.status = .assigned ∨ t.status = .running) →
    ∀ d ∈ t.dependencies, ∃ u, s.findTask d = some u ∧ u.status = .completed

/-- The inductive invariant for C1. -/
def GoodC1 (s : SchedSt) : Prop := IdsBounded s ∧ NodupIds s ∧ MonOk s ∧ DepInv s

lemma find?_id_of_mem_nodup {l : List ScheduledTask}
    (hnd : (l.map (fun t => t.id)).Nodup) {t : ScheduledTask} (ht : t ∈ l) :
    l.find? (fun u => u.id == t.id) = some t := by
  induction l with
  | nil => cases ht
  | cons y ys ih =>
    rcases List.mem_cons.mp ht with hty | htys
    · subst hty
      simp [List.find?_cons]
    · have hnd' := hnd
      rw [List.map_cons, List.nodup_cons] at hnd'
      have hyne : ¬ y.id = t.id := by
        intro hcontra
        exact hnd'.1 (hcontra ▸ List.mem_map_of_mem (fun u => u.id) htys)
      simpa [List.find?_cons, hyne] using ih hnd'.2 htys

lemma findTask_of_mem {s : SchedSt} (hnd : NodupIds s) {t : ScheduledTask}
    (ht : t ∈ s.tasks) : s.findTask t.id = some t :=
  find?_id_of_mem_nodup hnd ht

lemma findTask_modifyTask_ne (s : SchedSt) (tid : Nat) (f : ScheduledTask → ScheduledTask)
    (hf : ∀ u, (f u).id = u.id) (d : Nat) (hne : ¬ d = tid) :
    (s.modifyTask tid f).findTask d = s.findTask d := by
  rw [findTask_modifyTask s tid f hf d]
  cases hfd : s.findTask d with
  | none => rfl
  | some u =>
    have hb := find?_some_pred (show s.tasks.find? (fun x => x.id == d) = some u from hfd)
    have hud : u.id = d := by simpa using hb
    simp [hud, hne]

lemma canSchedule_deps (s : SchedSt) (t : ScheduledTask)
    (hcan : s.canScheduleTask t = true) :
    ∀ d ∈ t.dependencies, ∃ u, s.findTask d = some u ∧ u.status = .completed := by
  intro d hd
  have hall : (t.dependencies.all fun d2 => s.depOkB d2) = true := by
    by_contra hna
    have hfalse : (t.dependencies.all fun d2 => s.depOkB d2) = false :=
      Bool.not_eq_true _ ▸ Bool.eq_false_iff.mpr hna
    have hlen : 0 < t.dependencies.length := List.length_pos.mpr (List.ne_nil_of_mem hd)
    have hcond : (decide (0 < t.dependencies.length)
        && !(t.dependencies.all fun d2 => s.depOkB d2)) = true := by
      simp [hlen, hfalse]
    unfold SchedSt.canScheduleTask at hcan
    rw [if_pos (by simpa using hcond)] at hcan
    exact absurd hcan (by simp)
  have hdep := List.all_eq_true.mp hall d hd
  unfold SchedSt.depOkB at hdep
  cases hfd : s.findTask d with
  | none => rw [hfd] at hdep; exact absurd hdep (by simp)
  | some u =>
    rw [hfd] at hdep
    exact ⟨u, rfl, by simpa using hdep⟩

lemma depOk_transport (s : SchedSt) (tid : Nat) (f : ScheduledTask → ScheduledTask)
    (hnd : NodupIds s) (hf : ∀ u, (f u).id = u.id)
    (hold : ∀ u, s.findTask tid = some u → ¬ u.status = .completed)
    {d : Nat} (hex : ∃ v, s.findTask d = some v ∧ v.status = .completed) :
    ∃ v, (s.modifyTask tid f).findTask d = some v ∧ v.status = .completed := by
  obtain ⟨v, hv, hvc⟩ := hex
  by_cases hdt : d = tid
  · exfalso
    subst hdt
    exact hold v hv hvc
  · exact ⟨v, by rw [findTask_modifyTask_ne s tid f hf d hdt]; exact hv, hvc⟩

lemma depInv_modifyTask (s : SchedSt) (tid : Nat) (f : ScheduledTask → ScheduledTask)
    (hnd : NodupIds s)
    (hf : ∀ u, (f u).id = u.id) (hfd : ∀ u, (f u).dependencies = u.dependencies)
    (hold : ∀ u, s.findTask tid = some u → ¬ u.status = .completed)
    (hnew : ∀ u, s.findTask tid = some u →
      ((f u).status = .assigned ∨ (f u).status = .running) →
      ∀ d ∈ u.dependencies, ∃ v, s.findTask d = some v ∧ v.status = .completed)
    (hdep : DepInv s) : DepInv (s.modifyTask tid f) := by
  intro t' ht' hstat d hd
  rcases List.mem_map.mp ht' with ⟨u0, hu0, hgu0⟩
  by_cases hu0id : u0.id = tid
  · have hfind : s.findTask tid = some u0 := by
      rw [← hu0id]
      exact findTask_of_mem hnd hu0
    have ht'eq : t' = f u0 := by
      rw [← hgu0]
      simp [hu0id]
    rw [ht'eq] at hstat hd
    rw [hfd u0] at hd
    exact depOk_transport s tid f hnd hf hold (hnew u0 hfind hstat d hd)
  · have ht'eq : t' = u0 := by
      rw [← hgu0]
      simp [hu0id]
    rw [ht'eq] at hstat hd
    exact depOk_transport s tid f hnd hf hold (hdep u0 hu0 hstat d hd)

lemma nodupIds_of_shape {s s' : SchedSt} (h : tasksShapeEq s s') (hnd : NodupIds s) :
    NodupIds s' := by
  unfold NodupIds
  rw [tasksShapeEq_map_id h]
  exact hnd

lemma no_monitor_at_pending {s : SchedSt} (hm : MonOk s) {t : ScheduledTask}
    (hfind : s.findTask t.id = some t) (hpend : t.status = .pending) :
    ∀ m ∈ s.monitors, ¬ m.1 = t.id := by
  intro m hmem heq
  obtain ⟨u, hu, hs⟩ := hm.1 m hmem
  rw [heq, hfind] at hu
  cases hu
  rw [hpend] at hs
  rcases hs with h | h | h <;> cases h

lemma monOk_modify_nomonitor (s : SchedSt) (tid : Nat) (f : ScheduledTask → ScheduledTask)
    (hf : ∀ u, (f u).id = u.id) (hnomon : ∀ m ∈ s.monitors, ¬ m.1 = tid)
    (hm : MonOk s) : MonOk (s.modifyTask tid f) := by
  constructor
  · intro m hmem
    obtain ⟨u, hu, hs⟩ := hm.1 m hmem
    exact ⟨u, by rw [findTask_modifyTask_ne s tid f hf m.1 (hnomon m hmem)]; exact hu, hs⟩
  · exact hm.2

lemma monOk_modify_statusok (s : SchedSt) (tid : Nat) (f : ScheduledTask → ScheduledTask)
    (hf : ∀ u, (f u).id = u.id)
    (hok : ∀ u, s.findTask tid = some u →
      ((f u).status = .assigned ∨ (f u).status = .running ∨ (f u).status = .failed))
    (hm : MonOk s) : MonOk (s.modifyTask tid f) := by
  constructor
  · intro m hmem
    obtain ⟨u, hu, hs⟩ := hm.1 m hmem
    by_cases hmt : m.1 = tid
    · rw [hmt] at hu
      have hb := find?_some_pred (show s.tasks.find? (fun x => x.id == tid) = some u from hu)
      have huid : u.id = tid := by simpa using hb
      refine ⟨f u, ?_, hok u hu⟩
      rw [hmt, findTask_modifyTask s tid f hf tid, hu]
      simp [huid]
    · exact ⟨u, by rw [findTask_modifyTask_ne s tid f hf m.1 hmt]; exact hu, hs⟩
  · exact hm.2

/-- Branch characterization of `handoff`: either the announcement send
succeeds (task running, monitor started) or it fails (task failed); in both
branches the task table evolves by the explicit updates below and the
environment by some update `env1`. -/
lemma handoff_cases (s : SchedSt) (t : ScheduledTask) (r : PersonaRuntime) :
    (∃ env1, s.handoff t r
        = ({ ((s.modifyTask t.id (fun u => { u with status := TaskStatus.assigned, personaId := some r.personaId })).withEnv env1).modifyTask t.id (fun u => { u with status := TaskStatus.running }) with
              monitors := (t.id, r.personaId) :: s.monitors }, true))
  ∨ (∃ env1 e, s.handoff t r
        = (((s.modifyTask t.id (fun u => { u with status := TaskStatus.assigned, personaId := some r.personaId })).withEnv env1).modifyTask t.id (fun u => { u with status := TaskStatus.failed, error := some e }), true)) := by
  simp only [SchedSt.handoff]
  split
  · exact Or.inl ⟨_, rfl⟩
  · exact Or.inr ⟨_, _, rfl⟩

/-- Branch characterization of `assignTaskToPersona`: a hand-off to an
existing or freshly spawned persona, or a spawn failure marking the task
failed. -/
lemma assign_cases (s : SchedSt) (t : ScheduledTask) :
    (∃ r, s.assignTaskToPersona t = s.handoff t r)
  ∨ (∃ env1 r, s.assignTaskToPersona t = (s.withEnv env1).handoff t r)
  ∨ (∃ env1 e, s.assignTaskToPersona t
        = ((s.withEnv env1).modifyTask t.id
            (fun u => { u with status := TaskStatus.failed, error := some e }), false)) := by
  simp only [SchedSt.assignTaskToPersona]
  split
  · exact Or.inl ⟨_, rfl⟩
  · split
    · exact Or.inr (Or.inl ⟨_, _, rfl⟩)
    · exact Or.inr (Or.inr ⟨_, _, rfl⟩)

lemma handoff_good (s : SchedSt) (t : ScheduledTask) (r : PersonaRuntime)
    (hg : GoodC1 s) (ht : s.findTask t.id = some t) (hpend : t.status = .pending)
    (hdeps : ∀ d ∈ t.dependencies, ∃ u, s.findTask d = some u ∧ u.status = .completed) :
    GoodC1 (s.handoff t r).1
    ∧ ∀ d, ¬ d = t.id → (s.handoff t r).1.findTask d = s.findTask d := by
  obtain ⟨hb, hnd, hm, hdep⟩ := hg
  have hnomon : ∀ m ∈ s.monitors, ¬ m.1 = t.id := no_monitor_at_pending hm ht hpend
  have shA : tasksShapeEq s (s.modifyTask t.id (fun u => { u with status := TaskStatus.assigned, personaId := some r.personaId })) :=
    tasksShapeEq_modifyTask s t.id (fun u => { u with status := TaskStatus.assigned, personaId := some r.personaId }) (fun u => ⟨rfl, rfl⟩)
  have hb1 : IdsBounded (s.modifyTask t.id (fun u => { u with status := TaskStatus.assigned, personaId := some r.personaId })) := idsBounded_of_shape shA hb
  have hnd1 : NodupIds (s.modifyTask t.id (fun u => { u with status := TaskStatus.assigned, personaId := some r.personaId })) := nodupIds_of_shape shA hnd
  have hm1 : MonOk (s.modifyTask t.id (fun u => { u with status := TaskStatus.assigned, personaId := some r.personaId })) :=
    monOk_modify_nomonitor s t.id (fun u => { u with status := TaskStatus.assigned, personaId := some r.personaId }) (fun u => rfl) hnomon hm
  have hold0 : ∀ u, s.findTask t.id = some u → ¬ u.status = .completed := by
    intro u hu
    rw [ht] at hu
    cases hu
    rw [hpend]
    intro hcontra
    cases hcontra
  have hdep1 : DepInv (s.modifyTask t.id (fun u => { u with status := TaskStatus.assigned, personaId := some r.personaId })) := by
    apply depInv_modifyTask s t.id (fun u => { u with status := TaskStatus.assigned, personaId := some r.personaId }) hnd (fun u => rfl) (fun u => rfl) hold0 ?_ hdep
    intro u hu _ d hd
    rw [ht] at hu
    cases hu
    exact hdeps d hd
  have hfind1 : (s.modifyTask t.id (fun u => { u with status := TaskStatus.assigned, personaId := some r.personaId })).findTask t.id
      = some { t with status := TaskStatus.assigned, personaId := some r.personaId } :=
    findTask_modify_self s t.id t ht (fun u => { u with status := TaskStatus.assigned, personaId := some r.personaId }) (fun u => rfl)
  have hdeps1 : ∀ d ∈ t.dependencies,
      ∃ u, (s.modifyTask t.id (fun u => { u with status := TaskStatus.assigned, personaId := some r.personaId })).findTask d = some u ∧ u.status = .completed :=
    fun d hd => depOk_transport s t.id (fun u => { u with status := TaskStatus.assigned, personaId := some r.personaId }) hnd (fun u => rfl) hold0 (hdeps d hd)
  have hold1 : ∀ u, (s.modifyTask t.id (fun u => { u with status := TaskStatus.assigned, personaId := some r.personaId })).findTask t.id = some u →
      ¬ u.status = .completed := by
    intro u hu
    rw [hfind1] at hu
    cases hu
    intro hcontra
    cases hcontra
  rcases handoff_cases s t r with ⟨env1, heq⟩ | ⟨env1, e, heq⟩
  · rw [heq]
    have hbX : IdsBounded ((s.modifyTask t.id (fun u => { u with status := TaskStatus.assigned, personaId := some r.personaId })).withEnv env1) := hb1
    have hndX : NodupIds ((s.modifyTask t.id (fun u => { u with status := TaskStatus.assigned, personaId := some r.personaId })).withEnv env1) := hnd1
    have hmX : MonOk ((s.modifyTask t.id (fun u => { u with status := TaskStatus.assigned, personaId := some r.personaId })).withEnv env1) := hm1
    have hdepX : DepInv ((s.modifyTask t.id (fun u => { u with status := TaskStatus.assigned, personaId := some r.personaId })).withEnv env1) := hdep1
    have hfindX : ((s.modifyTask t.id (fun u => { u with status := TaskStatus.assigned, personaId := some r.personaId })).withEnv env1).findTask t.id
        = some { t with status := TaskStatus.assigned, personaId := some r.personaId } := hfind1
    have holdX : ∀ u, ((s.modifyTask t.id (fun u => { u with status := TaskStatus.assigned, personaId := some r.personaId })).withEnv env1).findTask t.id = some u →
        ¬ u.status = .completed := hold1
    have hdepsX : ∀ d ∈ t.dependencies,
        ∃ u, ((s.modifyTask t.id (fun u => { u with status := TaskStatus.assigned, personaId := some r.personaId })).withEnv env1).findTask d = some u
          ∧ u.status = .completed := hdeps1
    constructor
    · refine ⟨?_, ?_, ?_, ?_⟩
      · exact idsBounded_of_shape
          (tasksShapeEq_modifyTask ((s.modifyTask t.id (fun u => { u with status := TaskStatus.assigned, personaId := some r.personaId })).withEnv env1) t.id (fun u => { u with status := TaskStatus.running })
            (fun u => ⟨rfl, rfl⟩)) hbX
      · exact nodupIds_of_shape
          (tasksShapeEq_modifyTask ((s.modifyTask t.id (fun u => { u with status := TaskStatus.assigned, personaId := some r.personaId })).withEnv env1) t.id (fun u => { u with status := TaskStatus.running })
            (fun u => ⟨rfl, rfl⟩)) hndX
      · constructor
        · intro m hmem
          rcases List.mem_cons.mp hmem with hnew | holdm
          · subst hnew
            refine ⟨{ t with status := TaskStatus.running, personaId := some r.personaId },
              ?_, by simp⟩
            show (((s.modifyTask t.id (fun u => { u with status := TaskStatus.assigned, personaId := some r.personaId })).withEnv env1).modifyTask t.id (fun u => { u with status := TaskStatus.running })).findTask t.id = _
            rw [findTask_modifyTask ((s.modifyTask t.id (fun u => { u with status := TaskStatus.assigned, personaId := some r.personaId })).withEnv env1) t.id (fun u => { u with status := TaskStatus.running })
              (fun u => rfl) t.id, hfindX]
            simp
          · obtain ⟨u, hu, hs⟩ := hmX.1 m (by exact holdm)
            refine ⟨u, ?_, hs⟩
            show (((s.modifyTask t.id (fun u => { u with status := TaskStatus.assigned, personaId := some r.personaId })).withEnv env1).modifyTask t.id (fun u => { u with status := TaskStatus.running })).findTask m.1 = _
            rw [findTask_modifyTask_ne ((s.modifyTask t.id (fun u => { u with status := TaskStatus.assigned, personaId := some r.personaId })).withEnv env1) t.id (fun u => { u with status := TaskStatus.running })
              (fun u => rfl) m.1 (hnomon m holdm)]
            exact hu
        · show ((((t.id, r.personaId)) :: s.monitors).map Prod.fst).Nodup
          refine List.Nodup.cons ?_ hm.2
          intro hmem
          rcases List.mem_map.mp hmem with ⟨m, hmmem, hmfst⟩
          exact hnomon m hmmem hmfst
      · intro t' ht' hstat d hd
        have hinner : DepInv (((s.modifyTask t.id (fun u => { u with status := TaskStatus.assigned, personaId := some r.personaId })).withEnv env1).modifyTask t.id (fun u => { u with status := TaskStatus.running })) := by
          apply depInv_modifyTask ((s.modifyTask t.id (fun u => { u with status := TaskStatus.assigned, personaId := some r.personaId })).withEnv env1) t.id (fun u => { u with status := TaskStatus.running }) hndX
            (fun u => rfl) (fun u => rfl) holdX ?_ hdepX
          intro u hu _ d2 hd2
          rw [hfindX] at hu
          cases hu
          exact hdepsX d2 hd2
        exact hinner t' ht' hstat d hd
    · intro d hdne
      show (((s.modifyTask t.id (fun u => { u with status := TaskStatus.assigned, personaId := some r.personaId })).withEnv env1).modifyTask t.id (fun u => { u with status := TaskStatus.running })).findTask d = _
      rw [findTask_modifyTask_ne ((s.modifyTask t.id (fun u => { u with status := TaskStatus.assigned, personaId := some r.personaId })).withEnv env1) t.id (fun u => { u with status := TaskStatus.running })
        (fun u => rfl) d hdne]
      exact findTask_modifyTask_ne s t.id (fun u => { u with status := TaskStatus.assigned, personaId := some r.personaId }) (fun u => rfl) d hdne
  · rw [heq]
    have hbX : IdsBounded ((s.modifyTask t.id (fun u => { u with status := TaskStatus.assigned, personaId := some r.personaId })).withEnv env1) := hb1
    have hndX : NodupIds ((s.modifyTask t.id (fun u => { u with status := TaskStatus.assigned, personaId := some r.personaId })).withEnv env1) := hnd1
    have hmX : MonOk ((s.modifyTask t.id (fun u => { u with status := TaskStatus.assigned, personaId := some r.personaId })).withEnv env1) := hm1
    have hdepX : DepInv ((s.modifyTask t.id (fun u => { u with status := TaskStatus.assigned, personaId := some r.personaId })).withEnv env1) := hdep1
    have hfindX : ((s.modifyTask t.id (fun u => { u with status := TaskStatus.assigned, personaId := some r.personaId })).withEnv env1).findTask t.id
        = some { t with status := TaskStatus.assigned, personaId := some r.personaId } := hfind1
    have holdX : ∀ u, ((s.modifyTask t.id (fun u => { u with status := TaskStatus.assigned, personaId := some r.personaId })).withEnv env1).findTask t.id = some u →
        ¬ u.status = .completed := hold1
    constructor
    · refine ⟨?_, ?_, ?_, ?_⟩
      · exact idsBounded_of_shape
          (tasksShapeEq_modifyTask ((s.modifyTask t.id (fun u => { u with status := TaskStatus.assigned, personaId := some r.personaId })).withEnv env1) t.id (fun u => { u with status := TaskStatus.failed, error := some e })
            (fun u => ⟨rfl, rfl⟩)) hbX
      · exact nodupIds_of_shape
          (tasksShapeEq_modifyTask ((s.modifyTask t.id (fun u => { u with status := TaskStatus.assigned, personaId := some r.personaId })).withEnv env1) t.id (fun u => { u with status := TaskStatus.failed, error := some e })
            (fun u => ⟨rfl, rfl⟩)) hndX
      · exact monOk_modify_nomonitor ((s.modifyTask t.id (fun u => { u with status := TaskStatus.assigned, personaId := some r.personaId })).withEnv env1) t.id (fun u => { u with status := TaskStatus.failed, error := some e })
          (fun u => rfl) (by exact hnomon) hmX
      · apply depInv_modifyTask ((s.modifyTask t.id (fun u => { u with status := TaskStatus.assigned, personaId := some r.personaId })).withEnv env1) t.id (fun u => { u with status := TaskStatus.failed, error := some e }) hndX
          (fun u => rfl) (fun u => rfl) holdX ?_ hdepX
        intro u hu hstat2
        rcases hstat2 with h2 | h2 <;> cases h2
    · intro d hdne
      show (((s.modifyTask t.id (fun u => { u with status := TaskStatus.assigned, personaId := some r.personaId })).withEnv env1).modifyTask t.id (fun u => { u with status := TaskStatus.failed, error := some e })).findTask d = _
      rw [findTask_modifyTask_ne ((s.modifyTask t.id (fun u => { u with status := TaskStatus.assigned, personaId := some r.personaId })).withEnv env1) t.id (fun u => { u with status := TaskStatus.failed, error := some e })
        (fun u => rfl) d hdne]
      exact findTask_modifyTask_ne s t.id (fun u => { u with status := TaskStatus.assigned, personaId := some r.personaId }) (fun u => rfl) d hdne

lemma handoff_frame (s : SchedSt) (t : ScheduledTask) (r : PersonaRuntime)
    (d : Nat) (hd : ¬ d = t.id) : (s.handoff t r).1.findTask d = s.findTask d := by
  rcases handoff_cases s t r with ⟨env1, heq⟩ | ⟨env1, e, heq⟩
  · rw [heq]
    show (((s.modifyTask t.id (fun u => { u with status := TaskStatus.assigned, personaId := some r.personaId })).withEnv env1).modifyTask t.id (fun u => { u with status := TaskStatus.running })).findTask d = _
    rw [findTask_modifyTask_ne ((s.modifyTask t.id (fun u => { u with status := TaskStatus.assigned, personaId := some r.personaId })).withEnv env1) t.id (fun u => { u with status := TaskStatus.running })
      (fun u => rfl) d hd]
    exact findTask_modifyTask_ne s t.id (fun u => { u with status := TaskStatus.assigned, personaId := some r.personaId }) (fun u => rfl) d hd
  · rw [heq]
    show (((s.modifyTask t.id (fun u => { u with status := TaskStatus.assigned, personaId := some r.personaId })).withEnv env1).modifyTask t.id (fun u => { u with status := TaskStatus.failed, error := some e })).findTask d = _
    rw [findTask_modifyTask_ne ((s.modifyTask t.id (fun u => { u with status := TaskStatus.assigned, personaId := some r.personaId })).withEnv env1) t.id (fun u => { u with status := TaskStatus.failed, error := some e })
      (fun u => rfl) d hd]
    exact findTask_modifyTask_ne s t.id (fun u => { u with status := TaskStatus.assigned, personaId := some r.personaId }) (fun u => rfl) d hd

lemma assign_frame (s : SchedSt) (t : ScheduledTask)
    (d : Nat) (hd : ¬ d = t.id) : (s.assignTaskToPersona t).1.findTask d = s.findTask d := by
  rcases assign_cases s t with ⟨r, heq⟩ | ⟨env1, r, heq⟩ | ⟨env1, e, heq⟩
  · rw [heq]
    exact handoff_frame s t r d hd
  · rw [heq]
    exact handoff_frame (s.withEnv env1) t r d hd
  · rw [heq]
    exact findTask_modifyTask_ne (s.withEnv env1) t.id (fun u => { u with status := TaskStatus.failed, error := some e }) (fun u => rfl) d hd

lemma assign_good (s : SchedSt) (t : ScheduledTask)
    (hg : GoodC1 s) (hcan : s.canScheduleTask t = true)
    (ht : s.findTask t.id = some t) (hpend : t.status = .pending) :
    GoodC1 (s.assignTaskToPersona t).1 := by
  have hdeps := canSchedule_deps s t hcan
  rcases assign_cases s t with ⟨r, heq⟩ | ⟨env1, r, heq⟩ | ⟨env1, e, heq⟩
  · rw [heq]
    exact (handoff_good s t r hg ht hpend hdeps).1
  · rw [heq]
    have hg1 : GoodC1 (s.withEnv env1) := hg
    have ht1 : (s.withEnv env1).findTask t.id = some t := ht
    have hdeps1 : ∀ d ∈ t.dependencies,
        ∃ u, (s.withEnv env1).findTask d = some u ∧ u.status = .completed := hdeps
    exact (handoff_good (s.withEnv env1) t r hg1 ht1 hpend hdeps1).1
  · rw [heq]
    obtain ⟨hb, hnd, hm, hdep⟩ := hg
    have hbX : IdsBounded (s.withEnv env1) := hb
    have hndX : NodupIds (s.withEnv env1) := hnd
    have hmX : MonOk (s.withEnv env1) := hm
    have hdepX : DepInv (s.withEnv env1) := hdep
    have hnomon : ∀ m ∈ s.monitors, ¬ m.1 = t.id := no_monitor_at_pending hm ht hpend
    have holdX : ∀ u, (s.withEnv env1).findTask t.id = some u → ¬ u.status = .completed := by
      intro u hu
      have hu' : s.findTask t.id = some u := hu
      rw [ht] at hu'
      cases hu'
      rw [hpend]
      intro hcontra
      cases hcontra
    refine ⟨?_, ?_, ?_, ?_⟩
    · exact idsBounded_of_shape
        (tasksShapeEq_modifyTask (s.withEnv env1) t.id (fun u => { u with status := TaskStatus.failed, error := some e }) (fun u => ⟨rfl, rfl⟩)) hbX
    · exact nodupIds_of_shape
        (tasksShapeEq_modifyTask (s.withEnv env1) t.id (fun u => { u with status := TaskStatus.failed, error := some e }) (fun u => ⟨rfl, rfl⟩)) hndX
    · exact monOk_modify_nomonitor (s.withEnv env1) t.id (fun u => { u with status := TaskStatus.failed, error := some e })
        (fun u => rfl) (by exact hnomon) hmX
    · apply depInv_modifyTask (s.withEnv env1) t.id (fun u => { u with status := TaskStatus.failed, error := some e }) hndX
        (fun u => rfl) (fun u => rfl) holdX ?_ hdepX
      intro u hu hstat2
      rcases hstat2 with h2 | h2 <;> cases h2

/-- Generic preservation of a state property over the assignment loop of
`scheduleNextTasks`: a property preserved by every guarded assignment is
preserved by the whole pass over a snapshot of distinct pending tasks. -/
lemma passFold_pres (Q : SchedSt → Prop)
    (hass : ∀ s t, Q s → s.canScheduleTask t = true → s.findTask t.id = some t →
        t.status = .pending → Q (s.assignTaskToPersona t).1) :
    ∀ (l : List ScheduledTask) (s : SchedSt), Q s →
      (∀ t ∈ l, s.findTask t.id = some t ∧ t.status = .pending) →
      (l.map (fun t => t.id)).Nodup →
      Q (s.passFold l).1 := by
  intro l
  induction l with
  | nil =>
    intro s hq _ _
    exact hq
  | cons t rest ih =>
    intro s hq hsnap hnd
    simp only [SchedSt.passFold]
    split
    next hcan =>
      have hfacts := hsnap t (List.mem_cons_self t rest)
      have hq1 : Q (s.assignTaskToPersona t).1 := hass s t hq hcan hfacts.1 hfacts.2
      have hnd' := hnd
      rw [List.map_cons, List.nodup_cons] at hnd'
      have hsnap1 : ∀ u ∈ rest, (s.assignTaskToPersona t).1.findTask u.id = some u
          ∧ u.status = .pending := by
        intro u hu
        have hne : ¬ u.id = t.id := by
          intro hcontra
          exact hnd'.1 (hcontra ▸ List.mem_map_of_mem (fun x => x.id) hu)
        exact ⟨by rw [assign_frame s t u.id hne]; exact (hsnap u (List.mem_cons_of_mem t hu)).1,
          (hsnap u (List.mem_cons_of_mem t hu)).2⟩
      exact ih (s.assignTaskToPersona t).1 hq1 hsnap1 hnd'.2
    next hcan =>
      exact ih s hq (fun u hu => hsnap u (List.mem_cons_of_mem t hu)) (by
        rw [List.map_cons, List.nodup_cons] at hnd
        exact hnd.2)

/-- Generic preservation of a state property over one whole assignment
pass. -/
lemma pass_pres (Q : SchedSt → Prop)
    (hqnd : ∀ s, Q s → NodupIds s)
    (hass : ∀ s t, Q s → s.canScheduleTask t = true → s.findTask t.id = some t →
        t.status = .pending → Q (s.assignTaskToPersona t).1)
    (s : SchedSt) (hq : Q s) : Q s.scheduleNextTasks.1 := by
  simp only [SchedSt.scheduleNextTasks]
  split
  · exact hq
  split
  · exact hq
  apply passFold_pres Q hass (jsSortTasks s.getPendingTasks) s hq
  · intro t ht
    have htp : t ∈ s.getPendingTasks :=
      ((jsSortTasks_perm s.getPendingTasks).mem_iff).mp ht
    have hfm := List.mem_filter.mp htp
    exact ⟨findTask_of_mem (hqnd s hq) hfm.1, by simpa using hfm.2⟩
  · have hperm := (jsSortTasks_perm s.getPendingTasks).map (fun t => t.id)
    refine (hperm.nodup_iff).mpr ?_
    exact List.Nodup.sublist (List.Sublist.map _ (List.filter_sublist _)) (hqnd s hq)

lemma pass_good (s : SchedSt) (hg : GoodC1 s) : GoodC1 s.scheduleNextTasks.1 :=
  pass_pres GoodC1 (fun _ h => h.2.1)
    (fun s t hq hcan ht hpend => assign_good s t hq hcan ht hpend) s hg

lemma insertTask_tasks_append (s : SchedSt) (spec : TaskSpec) (hb : IdsBounded s) :
    (s.insertTask spec).1.tasks = s.tasks ++ [mkPendingTask s spec] := by
  show setByKey (fun u => u.id) s.tasks (mkPendingTask s spec) = _
  unfold setByKey
  split
  next hany =>
    exfalso
    rcases List.any_eq_true.mp hany with ⟨x, hx, hpx⟩
    have hxid : x.id = s.taskCounter + 1 := by simpa [mkPendingTask] using hpx
    have := hb x hx
    omega
  next => rfl

lemma findTask_insert (s : SchedSt) (spec : TaskSpec) (hb : IdsBounded s)
    (d : Nat) (u : ScheduledTask) (hd : s.findTask d = some u) :
    (s.insertTask spec).1.findTask d = some u := by
  have hd' : s.tasks.find? (fun t => t.id == d) = some u := hd
  show ((s.insertTask spec).1.tasks).find? (fun t => t.id == d) = some u
  rw [insertTask_tasks_append s spec hb, List.find?_append, hd']
  rfl

lemma insert_good (s : SchedSt) (spec : TaskSpec) (hg : GoodC1 s) :
    GoodC1 (s.insertTask spec).1 := by
  obtain ⟨hb, hnd, hm, hdep⟩ := hg
  have happ := insertTask_tasks_append s spec hb
  refine ⟨idsBounded_insert s spec hb, ?_, ?_, ?_⟩
  · show ((s.insertTask spec).1.tasks.map (fun t => t.id)).Nodup
    rw [happ, List.map_append, List.nodup_append]
    refine ⟨hnd, List.nodup_singleton _, ?_⟩
    intro i hi hi2
    have hival : i = s.taskCounter + 1 := by simpa [mkPendingTask] using hi2
    subst hival
    rcases List.mem_map.mp hi with ⟨u, hu, hid⟩
    have := hb u hu
    omega
  · constructor
    · intro m hmem
      obtain ⟨u, hu, hs⟩ := hm.1 m hmem
      exact ⟨u, findTask_insert s spec hb m.1 u hu, hs⟩
    · exact hm.2
  · intro t ht hstat d hd
    rw [happ] at ht
    rcases List.mem_append.mp ht with hto | htn
    · obtain ⟨v, hv, hvc⟩ := hdep t hto hstat d hd
      exact ⟨v, findTask_insert s spec hb d v hv, hvc⟩
    · have hteq : t = mkPendingTask s spec := by simpa using htn
      subst hteq
      rcases hstat with h | h <;> simp [mkPendingTask] at h

/-- Branch characterization of `cancelTask`: either an error path that leaves
the state untouched, or the non-terminal task is failed with the fixed
cancellation message over some environment update. -/
lemma cancel_cases (s : SchedSt) (tid : Nat) :
    (s.cancelTask tid).1 = s
  ∨ ∃ t env1, s.findTask tid = some t ∧ ¬ t.status = .completed ∧ ¬ t.status = .failed
      ∧ (s.cancelTask tid).1
        = (s.withEnv env1).modifyTask tid
            (fun u => { u with status := TaskStatus.failed, error := some "Task cancelled" }) := by
  simp only [SchedSt.cancelTask]
  split
  · exact Or.inl rfl
  next t heq =>
    split
    next hterm => exact Or.inl rfl
    next hterm =>
      have hnc : ¬ t.status = .completed ∧ ¬ t.status = .failed := by
        constructor <;> intro hcontra <;> simp [hcontra] at hterm
      right
      split
      · split
        · split
          · exact ⟨t, _, heq, hnc.1, hnc.2, rfl⟩
          · exact ⟨t, s.env, heq, hnc.1, hnc.2, rfl⟩
        · exact ⟨t, s.env, heq, hnc.1, hnc.2, rfl⟩
      · exact ⟨t, s.env, heq, hnc.1, hnc.2, rfl⟩

lemma cancel_good (s : SchedSt) (tid : Nat) (hg : GoodC1 s) : GoodC1 (s.cancelTask tid).1 := by
  rcases cancel_cases s tid with heq | ⟨t, env1, hf, hnc, hnf, heq⟩
  · rw [heq]
    exact hg
  · rw [heq]
    obtain ⟨hb, hnd, hm, hdep⟩ := hg
    have hbX : IdsBounded (s.withEnv env1) := hb
    have hndX : NodupIds (s.withEnv env1) := hnd
    have hmX : MonOk (s.withEnv env1) := hm
    have hdepX : DepInv (s.withEnv env1) := hdep
    have holdX : ∀ u, (s.withEnv env1).findTask tid = some u → ¬ u.status = .completed := by
      intro u hu
      have hu' : s.findTask tid = some u := hu
      rw [hf] at hu'
      cases hu'
      exact hnc
    refine ⟨?_, ?_, ?_, ?_⟩
    · exact idsBounded_of_shape
        (tasksShapeEq_modifyTask (s.withEnv env1) tid (fun u => { u with status := TaskStatus.failed, error := some "Task cancelled" }) (fun u => ⟨rfl, rfl⟩)) hbX
    · exact nodupIds_of_shape
        (tasksShapeEq_modifyTask (s.withEnv env1) tid (fun u => { u with status := TaskStatus.failed, error := some "Task cancelled" }) (fun u => ⟨rfl, rfl⟩)) hndX
    · exact monOk_modify_statusok (s.withEnv env1) tid (fun u => { u with status := TaskStatus.failed, error := some "Task cancelled" }) (fun u => rfl)
        (fun u _ => Or.inr (Or.inr rfl)) hmX
    · apply depInv_modifyTask (s.withEnv env1) tid (fun u => { u with status := TaskStatus.failed, error := some "Task cancelled" }) hndX
        (fun u => rfl) (fun u => rfl) holdX ?_ hdepX
      intro u hu hstat2
      rcases hstat2 with h2 | h2 <;> cases h2

/-- Branch characterization of one completion-monitor tick: either nothing
happens, or a live monitor for `tid` fires, failing or completing the task
and removing every monitor for `tid`. -/
lemma monitor_cases (s : SchedSt) (tid : Nat) :
    s.monitorTick tid = s
  ∨ ∃ m, m ∈ s.monitors ∧ m.1 = tid ∧
      ((∃ lastErr, s.monitorTick tid
          = { s.modifyTask tid (fun u => { u with status := TaskStatus.failed, error := lastErr }) with
              monitors := s.monitors.filter (fun x => x.1 != tid) })
      ∨ (∃ env1, s.monitorTick tid
          = { (s.modifyTask tid (fun u => { u with status := TaskStatus.completed })).withEnv env1 with
              monitors := s.monitors.filter (fun x => x.1 != tid) })) := by
  simp only [SchedSt.monitorTick]
  split
  · exact Or.inl rfl
  next m hfind =>
    have hmem : m ∈ s.monitors := List.mem_of_find?_eq_some hfind
    have hmt : m.1 = tid := by simpa using find?_some_pred hfind
    split
    · exact Or.inl rfl
    next r hr =>
      split
      next herr => exact Or.inr ⟨m, hmem, hmt, Or.inl ⟨_, rfl⟩⟩
      next herr =>
        split
        next hidle => exact Or.inr ⟨m, hmem, hmt, Or.inr ⟨_, rfl⟩⟩
        next => exact Or.inl rfl

lemma monOk_after_filter (s : SchedSt) (tid : Nat) (f : ScheduledTask → ScheduledTask)
    (hf : ∀ u, (f u).id = u.id) (hm : MonOk s) :
    (∀ m2 ∈ s.monitors.filter (fun x => x.1 != tid),
        ∃ u, (s.modifyTask tid f).findTask m2.1 = some u ∧
          (u.status = .assigned ∨ u.status = .running ∨ u.status = .failed))
    ∧ ((s.monitors.filter (fun x => x.1 != tid)).map Prod.fst).Nodup := by
  constructor
  · intro m2 hmem
    have hmem' : m2 ∈ s.monitors := List.mem_of_mem_filter hmem
    have hne : ¬ m2.1 = tid := by simpa using List.of_mem_filter hmem
    obtain ⟨u, hu, hs⟩ := hm.1 m2 hmem'
    exact ⟨u, by rw [findTask_modifyTask_ne s tid f hf m2.1 hne]; exact hu, hs⟩
  · exact List.Nodup.sublist (List.Sublist.map _ (List.filter_sublist _)) hm.2

lemma monitor_good (s : SchedSt) (tid : Nat) (hg : GoodC1 s) : GoodC1 (s.monitorTick tid) := by
  rcases monitor_cases s tid with heq | ⟨m, hmem, hmt, hcase⟩
  · rw [heq]
    exact hg
  obtain ⟨hb, hnd, hm, hdep⟩ := hg
  obtain ⟨u0, hu0, hs0⟩ := hm.1 m hmem
  rw [hmt] at hu0
  have hold : ∀ u, s.findTask tid = some u → ¬ u.status = .completed := by
    intro u hu
    rw [hu0] at hu
    cases hu
    rcases hs0 with h | h | h <;> (rw [h]; intro hc; cases hc)
  rcases hcase with ⟨lastErr, heq⟩ | ⟨env1, heq⟩
  · rw [heq]
    refine ⟨?_, ?_, ?_, ?_⟩
    · exact idsBounded_of_shape
        (tasksShapeEq_trans (tasksShapeEq_modifyTask s tid (fun u => { u with status := TaskStatus.failed, error := lastErr }) (fun u => ⟨rfl, rfl⟩))
          (tasksShapeEq_setMonitors _ _)) hb
    · exact nodupIds_of_shape
        (tasksShapeEq_trans (tasksShapeEq_modifyTask s tid (fun u => { u with status := TaskStatus.failed, error := lastErr }) (fun u => ⟨rfl, rfl⟩))
          (tasksShapeEq_setMonitors _ _)) hnd
    · exact monOk_after_filter s tid (fun u => { u with status := TaskStatus.failed, error := lastErr }) (fun u => rfl) hm
    · have hinner : DepInv (s.modifyTask tid (fun u => { u with status := TaskStatus.failed, error := lastErr })) := by
        apply depInv_modifyTask s tid (fun u => { u with status := TaskStatus.failed, error := lastErr }) hnd (fun u => rfl) (fun u => rfl) hold ?_ hdep
        intro u hu hstat2
        rcases hstat2 with h2 | h2 <;> cases h2
      exact hinner
  · rw [heq]
    refine ⟨?_, ?_, ?_, ?_⟩
    · exact idsBounded_of_shape
        (tasksShapeEq_trans (tasksShapeEq_modifyTask s tid (fun u => { u with status := TaskStatus.completed }) (fun u => ⟨rfl, rfl⟩))
          (tasksShapeEq_trans (tasksShapeEq_withEnv _ _) (tasksShapeEq_setMonitors _ _))) hb
    · exact nodupIds_of_shape
        (tasksShapeEq_trans (tasksShapeEq_modifyTask s tid (fun u => { u with status := TaskStatus.completed }) (fun u => ⟨rfl, rfl⟩))
          (tasksShapeEq_trans (tasksShapeEq_withEnv _ _) (tasksShapeEq_setMonitors _ _))) hnd
    · exact monOk_after_filter s tid (fun u => { u with status := TaskStatus.completed }) (fun u => rfl) hm
    · have hinner : DepInv (s.modifyTask tid (fun u => { u with status := TaskStatus.completed })) := by
        apply depInv_modifyTask s tid (fun u => { u with status := TaskStatus.completed }) hnd (fun u => rfl) (fun u => rfl) hold ?_ hdep
        intro u hu hstat2
        rcases hstat2 with h2 | h2 <;> cases h2
      exact hinner

lemma init_good (store : List PersonaDefinition) (mc : Nat) (mpt : List (String × Nat)) :
    GoodC1 (initSched store mc mpt) := by
  refine ⟨?_, ?_, ⟨?_, ?_⟩, ?_⟩
  · intro t ht
    cases ht
  · exact List.nodup_nil
  · intro m hmem
    cases hmem
  · exact List.nodup_nil
  · intro t ht
    cases ht

lemma step_good {P : TaskSpec → Prop} {s s' : SchedSt} (h : SStep P s s')
    (hg : GoodC1 s) : GoodC1 s' := by
  cases h with
  | schedule spec hP =>
    show GoodC1 (s.scheduleTask spec).1
    rw [scheduleTask_eq]
    exact pass_good _ (insert_good s spec hg)
  | pass => exact pass_good s hg
  | cancel tid => exact cancel_good s tid hg
  | monitor tid => exact monitor_good s tid hg
  | terminate pid => exact hg
  | sendMsg pid msg => exact hg
  | instErr iid emsg => exact hg
  | extPush e => exact hg

lemma reachable_good {P : TaskSpec → Prop} {store : List PersonaDefinition} {mc : Nat}
    {mpt : List (String × Nat)} {s : SchedSt}
    (h : ReachableP P store mc mpt s) : GoodC1 s := by
  unfold ReachableP at h
  induction h with
  | refl => exact init_good store mc mpt
  | tail hsteps hstep ih => exact step_good hstep ih

/-! ## C1: dependency gating in every reachable state -/

/-- A reachability derivation for the concrete five-task run, generic in the
schedule restriction. -/
lemma c3Run_reachableP (P : TaskSpec → Prop) (hP : ∀ p d, P (devSpec p d)) :
    ReachableP P [devDef, mgrDef] 10 [("developer", 2)] c3Run := by
  unfold ReachableP
  refine Relation.ReflTransGen.tail (Relation.ReflTransGen.tail (Relation.ReflTransGen.tail
    (Relation.ReflTransGen.tail (Relation.ReflTransGen.tail Relation.ReflTransGen.refl
      (SStep.schedule _ _ (hP _ _))) (SStep.schedule _ _ (hP _ _)))
    (SStep.schedule _ _ (hP _ _))) (SStep.schedule _ _ (hP _ _))) (SStep.schedule _ _ (hP _ _))

/-- A run in which task 1 is scheduled, cancelled, then completed by its
still-armed completion monitor observing the idled persona, after which task
2 (depending on task 1) is scheduled and handed off. -/
def c1Run : SchedSt :=
  ((((schedDevCap2.scheduleTask (devSpec .medium "t1")).1.cancelTask 1).1.monitorTick 1).scheduleTask
    { personaType := "developer", personaId := none, priority := .medium,
      description := "t2", dependencies := [1] }).1

/-- The dependent task of `c1Run`, running after its hand-off. -/
def c1Task : ScheduledTask :=
  { id := 2, personaType := "developer", personaId := some "developer-pool-0",
    priority := .medium, description := "t2", dependencies := [1],
    status := .running, result := none, error := none }

/-- C1.  In every scheduler state reachable from a fresh scheduler, a task
whose status is `assigned` or `running` has every id in its dependency list
resolving to a task whose status is `completed`; in particular no task with a
non-empty dependency list is ever assigned or running while some dependency
is not completed. -/
theorem dependency_gating (store : List PersonaDefinition) (mc : Nat)
    (mpt : List (String × Nat)) (s : SchedSt) (h : Reachable store mc mpt s)
    (t : ScheduledTask) (ht : t ∈ s.tasks)
    (hstat : t.status = TaskStatus.assigned ∨ t.status = TaskStatus.running) :
    ∀ d ∈ t.dependencies, ∃ u, s.findTask d = some u ∧ u.status = TaskStatus.completed :=
  (reachable_good h).2.2.2 t ht hstat

/-- Witness for C1: in the concrete run `c1Run`, task 2 is running with
dependency list `[1]`, and the theorem yields a completed task under id 1. -/
theorem dependency_gating_witness :
    ∃ u, c1Run.findTask 1 = some u ∧ u.status = TaskStatus.completed := by
  have hreach : Reachable [devDef, mgrDef] 10 [("developer", 2)] c1Run := by
    unfold Reachable ReachableP
    refine Relation.ReflTransGen.tail (Relation.ReflTransGen.tail (Relation.ReflTransGen.tail
      (Relation.ReflTransGen.tail Relation.ReflTransGen.refl
        (SStep.schedule _ _ trivial)) (SStep.cancel _ 1)) (SStep.monitor _ 1))
      (SStep.schedule _ _ trivial)
  exact dependency_gating [devDef, mgrDef] 10 [("developer", 2)] c1Run hreach c1Task
    (by decide) (Or.inr (by decide)) 1 (by decide)

/-! ## C3: per-type persona cap -/

/-- Relates two active-persona tables when the second is the first with only
per-runtime state changed: runtime identities and definitions are intact. -/
def stateOnly (l l2 : List PersonaRuntime) : Prop :=
  ∃ g : PersonaRuntime → PersonaRuntime,
    (∀ r, (g r).personaId = r.personaId ∧ (g r).definition = r.definition) ∧ l2 = l.map g

lemma stateOnly_refl (l : List PersonaRuntime) : stateOnly l l :=
  ⟨id, fun _ => ⟨rfl, rfl⟩, (List.map_id l).symm⟩

lemma stateOnly_trans {a b c : List PersonaRuntime}
    (h1 : stateOnly a b) (h2 : stateOnly b c) : stateOnly a c := by
  obtain ⟨g1, hg1, e1⟩ := h1
  obtain ⟨g2, hg2, e2⟩ := h2
  refine ⟨fun r => g2 (g1 r), ?_, ?_⟩
  · intro r
    exact ⟨((hg2 (g1 r)).1).trans (hg1 r).1, ((hg2 (g1 r)).2).trans (hg1 r).2⟩
  · rw [e2, e1]
    exact List.map_map g2 g1 a

lemma filter_length_map_pres {α : Type} (g : α → α) (p : α → Bool) (l : List α)
    (h : ∀ x, p (g x) = p x) :
    ((l.map g).filter p).length = (l.filter p).length := by
  induction l with
  | nil => rfl
  | cons y ys ih =>
    by_cases hy : p y = true
    · simp [List.filter_cons, h, hy, ih]
    · simp [List.filter_cons, h, hy, ih]

lemma stateOnly_count {l l2 : List PersonaRuntime} (h : stateOnly l l2) (ty : String) :
    (l2.filter (fun r => r.definition.type == ty)).length
      = (l.filter (fun r => r.definition.type == ty)).length := by
  obtain ⟨g, hg, he⟩ := h
  rw [he]
  exact filter_length_map_pres g _ l (fun x => by rw [(hg x).2])

lemma stateOnly_keys {l l2 : List PersonaRuntime} (h : stateOnly l l2) :
    l2.map (fun r => r.personaId) = l.map (fun r => r.personaId) := by
  obtain ⟨g, hg, he⟩ := h
  rw [he, List.map_map]
  exact List.map_congr_left (fun a _ => (hg a).1)

lemma filter_len_cons_le {α : Type} (p : α → Bool) (x : α) (l : List α) :
    ((x :: l).filter p).length ≤ (l.filter p).length + 1 := by
  rw [List.filter_cons]
  split <;> simp

lemma filter_len_cons_ge {α : Type} (p : α → Bool) (x : α) (l : List α) :
    (l.filter p).length ≤ ((x :: l).filter p).length := by
  rw [List.filter_cons]
  split <;> simp

lemma count_update_le (l : List PersonaRuntime) (k : String) (r : PersonaRuntime) (ty : String)
    (hnd : (l.map (fun x => x.personaId)).Nodup) :
    ((l.map (fun x => if x.personaId == k then r else x)).filter
        (fun x => x.definition.type == ty)).length
      ≤ (l.filter (fun x => x.definition.type == ty)).length + 1 := by
  induction l with
  | nil => simp
  | cons y ys ih =>
    rw [List.map_cons, List.nodup_cons] at hnd
    by_cases hy : (y.personaId == k) = true
    · have hk : y.personaId = k := by simpa using hy
      have hmapys : ys.map (fun x => if x.personaId == k then r else x) = ys := by
        have hpt : ∀ x ∈ ys, (if x.personaId == k then r else x) = x := by
          intro x hx
          have hne : ¬ x.personaId = k := by
            intro hcontra
            exact hnd.1 (by rw [hk, ← hcontra]; exact List.mem_map_of_mem _ hx)
          simp [hne]
        exact (List.map_congr_left hpt).trans (List.map_id ys)
      rw [List.map_cons, hmapys, if_pos hy]
      exact le_trans (filter_len_cons_le _ r ys) (Nat.add_le_add_right (filter_len_cons_ge _ y ys) 1)
    · rw [List.map_cons, if_neg hy]
      simp only [List.filter_cons]
      split
      · simp only [List.length_cons]
        have := ih hnd.2
        omega
      · have := ih hnd.2
        omega

lemma setByKey_personas_count_le (l : List PersonaRuntime) (a : PersonaRuntime) (ty : String)
    (hkeys : (l.map (fun r => r.personaId)).Nodup) :
    ((setByKey (fun x => x.personaId) l a).filter (fun x => x.definition.type == ty)).length
      ≤ (l.filter (fun x => x.definition.type == ty)).length + 1 := by
  unfold setByKey
  split
  · exact count_update_le l a.personaId a ty hkeys
  · rw [List.filter_append]
    by_cases ha : (a.definition.type == ty) = true <;> simp [List.filter_cons, ha]

lemma setByKey_keys_nodup (l : List PersonaRuntime) (a : PersonaRuntime)
    (hkeys : (l.map (fun r => r.personaId)).Nodup) :
    ((setByKey (fun x => x.personaId) l a).map (fun r => r.personaId)).Nodup := by
  unfold setByKey
  split
  next hany =>
    have hsame : (l.map (fun x => if x.personaId == a.personaId then a else x)).map
        (fun r => r.personaId) = l.map (fun r => r.personaId) := by
      rw [List.map_map]
      apply List.map_congr_left
      intro x _
      by_cases hx : (x.personaId == a.personaId) = true
      · have hxe : x.personaId = a.personaId := by simpa using hx
        simp [Function.comp, hx, hxe]
      · simp [Function.comp, hx]
    rw [hsame]
    exact hkeys
  next hany =>
    rw [List.map_append, List.nodup_append]
    refine ⟨hkeys, List.nodup_singleton _, ?_⟩
    intro i hi hi2
    have hia : i = a.personaId := by simpa using hi2
    subst hia
    rcases List.mem_map.mp hi with ⟨u, hu, hid⟩
    exact hany (List.any_eq_true.mpr ⟨u, hu, by simpa using hid⟩)

lemma modify_personas (e : EnvSt) (pid : String) (f : PersonaState → PersonaState) :
    stateOnly e.activePersonas (e.modifyRuntimeState pid f).activePersonas :=
  ⟨fun r => if r.personaId == pid then { r with state := f r.state } else r,
   fun r => by by_cases h : (r.personaId == pid) = true <;> simp [h],
   rfl⟩

lemma send_personas (e : EnvSt) (pid msg : String) :
    stateOnly e.activePersonas ((e.sendMessageToPersona pid msg).1).activePersonas := by
  simp only [EnvSt.sendMessageToPersona]
  split
  · exact stateOnly_refl _
  · repeat' split
    all_goals
      exact stateOnly_trans
        (modify_personas e pid (fun st => { st with status := PersonaStatus.busy }))
        (modify_personas _ pid _)

lemma terminate_personas (e : EnvSt) (pid : String) :
    ((e.terminatePersona pid).1).activePersonas = e.activePersonas
  ∨ ((e.terminatePersona pid).1).activePersonas
      = e.activePersonas.filter (fun x => x.personaId != pid) := by
  simp only [EnvSt.terminatePersona]
  split
  · exact Or.inl rfl
  · split
    · exact Or.inl rfl
    · exact Or.inr rfl

lemma onInstanceError_personas (e : EnvSt) (iid emsg : String) :
    stateOnly e.activePersonas (e.onInstanceError iid emsg).activePersonas := by
  simp only [EnvSt.onInstanceError]
  split
  · exact modify_personas e _ _
  · exact stateOnly_refl _

lemma spawn_personas (e : EnvSt) (pid : String) (task : Option String) :
    stateOnly e.activePersonas (((e.spawnPersona pid task).1).activePersonas)
  ∨ ∃ r0, stateOnly (setByKey (fun x => x.personaId) e.activePersonas r0)
      (((e.spawnPersona pid task).1).activePersonas) := by
  simp only [EnvSt.spawnPersona]
  repeat' split
  all_goals first
    | exact Or.inl (stateOnly_refl _)
    | exact Or.inr ⟨_, send_personas _ _ _⟩
    | exact Or.inr ⟨_, stateOnly_trans (send_personas _ _ _) (modify_personas _ _ _)⟩

lemma spawn_count (e : EnvSt) (pid : String) (task : Option String) (ty : String)
    (hkeys : (e.activePersonas.map (fun r => r.personaId)).Nodup) :
    (((e.spawnPersona pid task).1).activePersonas.filter (fun r => r.definition.type == ty)).length
      ≤ (e.activePersonas.filter (fun r => r.definition.type == ty)).length + 1 := by
  rcases spawn_personas e pid task with h | ⟨r0, h⟩
  · rw [stateOnly_count h ty]
    exact Nat.le_succ _
  · rw [stateOnly_count h ty]
    exact setByKey_personas_count_le e.activePersonas r0 ty hkeys

lemma handoff_personas (s : SchedSt) (t : ScheduledTask) (r : PersonaRuntime) :
    stateOnly s.env.activePersonas (((s.handoff t r).1.env).activePersonas) := by
  simp only [SchedSt.handoff]
  split <;>
    exact stateOnly_trans
      (modify_personas s.env r.personaId (fun st => { st with currentTask := some t.description }))
      (send_personas _ _ _)

lemma assign_personas (s : SchedSt) (t : ScheduledTask) :
    stateOnly s.env.activePersonas (((s.assignTaskToPersona t).1.env).activePersonas)
  ∨ ∃ r0, stateOnly (setByKey (fun x => x.personaId) s.env.activePersonas r0)
      (((s.assignTaskToPersona t).1.env).activePersonas) := by
  simp only [SchedSt.assignTaskToPersona]
  split
  · exact Or.inl (handoff_personas s t _)
  · rcases spawn_personas s.env (getPersonaIdForType t.personaType) (some t.description)
      with h | ⟨r0, h⟩
    · split
      · exact Or.inl (stateOnly_trans h (handoff_personas _ t _))
      · exact Or.inl h
    · split
      · exact Or.inr ⟨r0, stateOnly_trans h (handoff_personas _ t _)⟩
      · exact Or.inr ⟨r0, h⟩

lemma maxForType_dev (s : SchedSt) (hcaps : s.maxPersonasPerType = [("developer", 2)]) :
    s.maxForType "developer" = 2 := by
  unfold SchedSt.maxForType
  rw [hcaps]
  rfl

lemma assign_count (s : SchedSt) (t : ScheduledTask)
    (hcaps : s.maxPersonasPerType = [("developer", 2)])
    (hty : t.personaType = "developer") (hpin : t.personaId = none)
    (hkeys : (s.env.activePersonas.map (fun r => r.personaId)).Nodup)
    (hcan : s.canScheduleTask t = true)
    (hcount : (s.env.getActivePersonasByType "developer").length ≤ 2) :
    ((s.assignTaskToPersona t).1.env.getActivePersonasByType "developer").length ≤ 2 := by
  simp only [SchedSt.assignTaskToPersona]
  split
  next r heq =>
    exact le_trans (le_of_eq (stateOnly_count (handoff_personas s t r) "developer")) hcount
  next heq =>
    have hidle : (s.env.getActivePersonasByType t.personaType).find?
        (fun p => p.state.status == .idle) = none := by
      rw [hpin] at heq
      exact heq
    rw [hty] at hidle
    have hlt : (s.env.getActivePersonasByType "developer").length < 2 := by
      by_contra hge
      push_neg at hge
      simp only [SchedSt.canScheduleTask] at hcan
      split at hcan
      · exact absurd hcan (by simp)
      · rw [hty, maxForType_dev s hcaps, if_pos hge, hidle] at hcan
        exact absurd hcan (by simp)
    have hsc := spawn_count s.env (getPersonaIdForType t.personaType) (some t.description)
      "developer" hkeys
    have hlt2 : (s.env.activePersonas.filter
        (fun r => r.definition.type == "developer")).length < 2 := hlt
    split
    next r heq2 =>
      refine le_trans (le_of_eq (stateOnly_count (handoff_personas _ t r) "developer")) ?_
      refine le_trans hsc ?_
      omega
    next e2 heq2 =>
      refine le_trans hsc ?_
      omega

/-- The task-table facts of the developer-only scenario: every task targets
the developer role kind and pending tasks are unpinned. -/
def TF (s : SchedSt) : Prop :=
  ∀ t ∈ s.tasks, t.personaType = "developer" ∧ (t.status = TaskStatus.pending → t.personaId = none)

lemma taskFacts_modify (s : SchedSt) (tid : Nat) (f : ScheduledTask → ScheduledTask)
    (hty : ∀ u, (f u).personaType = u.personaType)
    (hst : ∀ u, ¬ (f u).status = .pending)
    (h : TF s) : TF (s.modifyTask tid f) := by
  intro t ht
  rcases List.mem_map.mp ht with ⟨u, hu, hgu⟩
  by_cases hx : (u.id == tid) = true
  · have hteq : t = f u := by rw [← hgu, if_pos hx]
    subst hteq
    exact ⟨(hty u).trans (h u hu).1, fun hp => absurd hp (hst u)⟩
  · have hteq : t = u := by rw [← hgu, if_neg hx]
    subst hteq
    exact h t hu

lemma handoff_taskFacts (s : SchedSt) (t : ScheduledTask) (r : PersonaRuntime)
    (h : TF s) : TF (s.handoff t r).1 := by
  rcases handoff_cases s t r with ⟨env1, heq⟩ | ⟨env1, e, heq⟩
  · rw [heq]
    have h1 : TF ((s.modifyTask t.id (fun u => { u with status := TaskStatus.assigned, personaId := some r.personaId })).withEnv env1) :=
      taskFacts_modify s t.id (fun u => { u with status := TaskStatus.assigned, personaId := some r.personaId }) (fun u => rfl) (fun u hcontra => by cases hcontra) h
    exact taskFacts_modify ((s.modifyTask t.id (fun u => { u with status := TaskStatus.assigned, personaId := some r.personaId })).withEnv env1) t.id (fun u => { u with status := TaskStatus.running })
      (fun u => rfl) (fun u hcontra => by cases hcontra) h1
  · rw [heq]
    have h1 : TF ((s.modifyTask t.id (fun u => { u with status := TaskStatus.assigned, personaId := some r.personaId })).withEnv env1) :=
      taskFacts_modify s t.id (fun u => { u with status := TaskStatus.assigned, personaId := some r.personaId }) (fun u => rfl) (fun u hcontra => by cases hcontra) h
    exact taskFacts_modify ((s.modifyTask t.id (fun u => { u with status := TaskStatus.assigned, personaId := some r.personaId })).withEnv env1) t.id (fun u => { u with status := TaskStatus.failed, error := some e })
      (fun u => rfl) (fun u hcontra => by cases hcontra) h1

lemma assign_taskFacts (s : SchedSt) (t : ScheduledTask) (h : TF s) :
    TF (s.assignTaskToPersona t).1 := by
  rcases assign_cases s t with ⟨r, heq⟩ | ⟨env1, r, heq⟩ | ⟨env1, e, heq⟩
  · rw [heq]
    exact handoff_taskFacts s t r h
  · rw [heq]
    exact handoff_taskFacts (s.withEnv env1) t r h
  · rw [heq]
    exact taskFacts_modify (s.withEnv env1) t.id (fun u => { u with status := TaskStatus.failed, error := some e })
      (fun u => rfl) (fun u hcontra => by cases hcontra) h

lemma taskFacts_insert (s : SchedSt) (spec : TaskSpec)
    (hspec : spec.personaType = "developer" ∧ spec.personaId = none)
    (h : TF s) : TF (s.insertTask spec).1 := by
  intro t ht
  have ht' : t ∈ setByKey (fun u => u.id) s.tasks (mkPendingTask s spec) := ht
  have hmk : (mkPendingTask s spec).personaType = "developer"
      ∧ ((mkPendingTask s spec).status = TaskStatus.pending →
          (mkPendingTask s spec).personaId = none) :=
    ⟨hspec.1, fun _ => hspec.2⟩
  unfold setByKey at ht'
  split at ht'
  · rcases List.mem_map.mp ht' with ⟨u, hu, hgu⟩
    by_cases hx : (u.id == (mkPendingTask s spec).id) = true
    · have hteq : t = mkPendingTask s spec := by rw [← hgu, if_pos hx]
      subst hteq
      exact hmk
    · have hteq : t = u := by rw [← hgu, if_neg hx]
      subst hteq
      exact h t hu
  · rcases List.mem_append.mp ht' with hu | hu
    · exact h t hu
    · have hteq : t = mkPendingTask s spec := by simpa using hu
      subst hteq
      exact hmk

lemma cancel_personas (s : SchedSt) (tid : Nat) :
    stateOnly s.env.activePersonas (((s.cancelTask tid).1.env).activePersonas) := by
  simp only [SchedSt.cancelTask]
  repeat' split
  all_goals first
    | exact stateOnly_refl _
    | exact modify_personas s.env _ _

lemma monitor_personas (s : SchedSt) (tid : Nat) :
    stateOnly s.env.activePersonas (((s.monitorTick tid).env).activePersonas) := by
  simp only [SchedSt.monitorTick]
  repeat' split
  all_goals first
    | exact stateOnly_refl _
    | exact modify_personas s.env _ _

lemma cancel_taskFacts (s : SchedSt) (tid : Nat) (h : TF s) : TF (s.cancelTask tid).1 := by
  rcases cancel_cases s tid with heq | ⟨t, env1, hf, hnc, hnf, heq⟩
  · rw [heq]
    exact h
  · rw [heq]
    exact taskFacts_modify (s.withEnv env1) tid (fun u => { u with status := TaskStatus.failed, error := some "Task cancelled" })
      (fun u => rfl) (fun u hcontra => by cases hcontra) h

lemma monitor_taskFacts (s : SchedSt) (tid : Nat) (h : TF s) : TF (s.monitorTick tid) := by
  rcases monitor_cases s tid with heq | ⟨m, hmem, hmt, hcase⟩
  · rw [heq]
    exact h
  rcases hcase with ⟨lastErr, heq⟩ | ⟨env1, heq⟩
  · rw [heq]
    exact taskFacts_modify s tid (fun u => { u with status := TaskStatus.failed, error := lastErr })
      (fun u => rfl) (fun u hcontra => by cases hcontra) h
  · rw [heq]
    exact taskFacts_modify s tid (fun u => { u with status := TaskStatus.completed })
      (fun u => rfl) (fun u hcontra => by cases hcontra) h

/-- The inductive invariant of the C3 scenario: the structural scheduler
invariant, the developer-persona count bounded by the cap, the task-table
facts, distinct runtime keys, and the concrete cap table. -/
def C3Inv (s : SchedSt) : Prop :=
  GoodC1 s
  ∧ (s.env.getActivePersonasByType "developer").length ≤ 2
  ∧ TF s
  ∧ (s.env.activePersonas.map (fun r => r.personaId)).Nodup
  ∧ s.maxPersonasPerType = [("developer", 2)]

lemma assign_c3 (s : SchedSt) (t : ScheduledTask) (hinv : C3Inv s)
    (hcan : s.canScheduleTask t = true) (ht : s.findTask t.id = some t)
    (hpend : t.status = .pending) : C3Inv (s.assignTaskToPersona t).1 := by
  obtain ⟨hg, hcount, htf, hkeys, hcaps⟩ := hinv
  have htmem : t ∈ s.tasks := List.mem_of_find?_eq_some ht
  have hfacts := htf t htmem
  refine ⟨assign_good s t hg hcan ht hpend, ?_, assign_taskFacts s t htf, ?_, ?_⟩
  · exact assign_count s t hcaps hfacts.1 (hfacts.2 hpend) hkeys hcan hcount
  · rcases assign_personas s t with h | ⟨r0, h⟩
    · rw [stateOnly_keys h]
      exact hkeys
    · rw [stateOnly_keys h]
      exact setByKey_keys_nodup _ _ hkeys
  · rw [(assign_tasksShape s t).2.2.2]
    exact hcaps

lemma pass_c3 (s : SchedSt) (hinv : C3Inv s) : C3Inv s.scheduleNextTasks.1 :=
  pass_pres C3Inv (fun _ h => h.1.2.1)
    (fun s t hq hcan ht hpend => assign_c3 s t hq hcan ht hpend) s hinv

lemma step_c3 {s s' : SchedSt}
    (h : SStep (fun spec => spec.personaType = "developer" ∧ spec.personaId = none) s s')
    (hinv : C3Inv s) : C3Inv s' := by
  obtain ⟨hg, hcount, htf, hkeys, hcaps⟩ := hinv
  cases h with
  | schedule spec hP =>
    show C3Inv (s.scheduleTask spec).1
    rw [scheduleTask_eq]
    apply pass_c3
    exact ⟨insert_good s spec hg, hcount, taskFacts_insert s spec hP htf, hkeys, hcaps⟩
  | pass => exact pass_c3 s ⟨hg, hcount, htf, hkeys, hcaps⟩
  | cancel tid =>
    refine ⟨cancel_good s tid hg, ?_, cancel_taskFacts s tid htf, ?_, ?_⟩
    · exact le_trans (le_of_eq (stateOnly_count (cancel_personas s tid) "developer")) hcount
    · rw [stateOnly_keys (cancel_personas s tid)]
      exact hkeys
    · rw [(cancel_tasksShape s tid).2.2.2]
      exact hcaps
  | monitor tid =>
    refine ⟨monitor_good s tid hg, ?_, monitor_taskFacts s tid htf, ?_, ?_⟩
    · exact le_trans (le_of_eq (stateOnly_count (monitor_personas s tid) "developer")) hcount
    · rw [stateOnly_keys (monitor_personas s tid)]
      exact hkeys
    · rw [(monitor_tasksShape s tid).2.2.2]
      exact hcaps
  | terminate pid =>
    refine ⟨hg, ?_, htf, ?_, hcaps⟩
    · show (((s.env.terminatePersona pid).1).activePersonas.filter
        (fun r => r.definition.type == "developer")).length ≤ 2
      rcases terminate_personas s.env pid with h | h
      · rw [h]
        exact hcount
      · rw [h]
        exact le_trans (List.Sublist.length_le
          (List.Sublist.filter _ (List.filter_sublist _))) hcount
    · show (((s.env.terminatePersona pid).1).activePersonas.map (fun r => r.personaId)).Nodup
      rcases terminate_personas s.env pid with h | h
      · rw [h]
        exact hkeys
      · rw [h]
        exact List.Nodup.sublist (List.Sublist.map _ (List.filter_sublist _)) hkeys
  | sendMsg pid msg =>
    refine ⟨hg, ?_, htf, ?_, hcaps⟩
    · exact le_trans (le_of_eq (stateOnly_count (send_personas s.env pid msg) "developer")) hcount
    · show (((s.env.sendMessageToPersona pid msg).1).activePersonas.map
        (fun r => r.personaId)).Nodup
      rw [stateOnly_keys (send_personas s.env pid msg)]
      exact hkeys
  | instErr iid emsg =>
    refine ⟨hg, ?_, htf, ?_, hcaps⟩
    · exact le_trans (le_of_eq (stateOnly_count (onInstanceError_personas s.env iid emsg)
        "developer")) hcount
    · show ((s.env.onInstanceError iid emsg).activePersonas.map (fun r => r.personaId)).Nodup
      rw [stateOnly_keys (onInstanceError_personas s.env iid emsg)]
      exact hkeys
  | extPush e => exact ⟨hg, hcount, htf, hkeys, hcaps⟩

lemma reachable_c3 {mc : Nat} {s : SchedSt}
    (h : ReachableP (fun spec => spec.personaType = "developer" ∧ spec.personaId = none)
      [devDef, mgrDef] mc [("developer", 2)] s) : C3Inv s := by
  unfold ReachableP at h
  induction h with
  | refl =>
    refine ⟨init_good _ _ _, Nat.zero_le 2, ?_, List.nodup_nil, rfl⟩
    intro t ht
    cases ht
  | tail hsteps hstep ih => exact step_c3 hstep ih

lemma passFold_skip (s : SchedSt) (l : List ScheduledTask)
    (hall : ∀ t ∈ l, s.canScheduleTask t = false) : (s.passFold l).1 = s := by
  induction l with
  | nil => rfl
  | cons t rest ih =>
    simp only [SchedSt.passFold]
    rw [hall t (List.mem_cons_self t rest), if_neg Bool.false_ne_true]
    exact ih (fun u hu => hall u (List.mem_cons_of_mem t hu))

/-- When the developer cap is saturated and no developer persona is idle, an
assignment pass cannot schedule any of the (all-developer) pending tasks and
leaves the scheduler state unchanged. -/
lemma pass_blocked (s : SchedSt) (htf : TF s)
    (hcaps : s.maxPersonasPerType = [("developer", 2)])
    (hge : 2 ≤ (s.env.getActivePersonasByType "developer").length)
    (hnoidle : (s.env.getActivePersonasByType "developer").find?
      (fun p => p.state.status == PersonaStatus.idle) = none) :
    s.scheduleNextTasks.1 = s := by
  have hfalse : ∀ t ∈ s.tasks, s.canScheduleTask t = false := by
    intro t ht
    have htyp := (htf t ht).1
    simp only [SchedSt.canScheduleTask]
    split
    · rfl
    · rw [htyp, maxForType_dev s hcaps, if_pos hge, hnoidle]
      rfl
  simp only [SchedSt.scheduleNextTasks]
  split
  · rfl
  split
  · rfl
  apply passFold_skip
  intro t ht
  have htp : t ∈ s.getPendingTasks := ((jsSortTasks_perm s.getPendingTasks).mem_iff).mp ht
  exact hfalse t (List.mem_filter.mp htp).1

/-- C3.  In the developer scenario (per-type cap 2, only unpinned developer
tasks scheduled), every reachable state has at most 2 active developer
personas; when the cap is saturated and no developer persona is idle, an
assignment pass changes nothing, so pending tasks remain pending; and in the
concrete five-task run exactly 2 developer personas exist while the three
excess tasks are still pending. -/
theorem per_type_cap (mc : Nat) (s : SchedSt)
    (h : ReachableP (fun spec => spec.personaType = "developer" ∧ spec.personaId = none)
      [devDef, mgrDef] mc [("developer", 2)] s) :
    ((s.env.getActivePersonasByType "developer").length ≤ 2
      ∧ (2 ≤ (s.env.getActivePersonasByType "developer").length →
          (s.env.getActivePersonasByType "developer").find?
            (fun p => p.state.status == PersonaStatus.idle) = none →
          s.scheduleNextTasks.1 = s))
    ∧ ((c3Run.env.getActivePersonasByType "developer").length = 2
        ∧ c3Run.tasks.map (fun t => (t.id, t.status))
          = [(1, .running), (2, .running), (3, .pending), (4, .pending), (5, .pending)]) := by
  have hinv := reachable_c3 h
  exact ⟨⟨hinv.2.1, fun hge hni => pass_blocked s hinv.2.2.1 hinv.2.2.2.2 hge hni⟩,
    by decide, by decide⟩

/-- Witness for C3: the theorem applied to the concrete five-task run, which
is reachable under the developer-only schedule restriction. -/
theorem per_type_cap_witness :
    (c3Run.env.getActivePersonasByType "developer").length ≤ 2
      ∧ (c3Run.env.getActivePersonasByType "developer").length = 2 := by
  have h := c3Run_reachableP
    (fun spec => spec.personaType = "developer" ∧ spec.personaId = none)
    (fun p d => ⟨rfl, rfl⟩)
  exact ⟨(per_type_cap 10 c3Run h).1.1, (per_type_cap 10 c3Run h).2.1⟩

end CodingTeam
